import Mathlib

/-!
Verification of the `lv-py` Logstash-to-Vector configuration translator.

This file shallowly embeds the translator's core (the regex-based document
parser, the value decoder, the transformer registry with its built-in
transformers, the two translation orchestrators `migrate_config` and
`transform_config`, and the migration-report model) as executable Lean
definitions, and proves the stated properties about them.

Python dictionaries that are only ever extended with fresh keys
(`sources`, `transforms`, `sinks` in the orchestrators) are modelled as
association lists built by appending; key freshness is proved separately
(see the identifier-uniqueness theorems below), so appending coincides
with Python's insert-or-overwrite semantics on every reachable state.

Scanning loops that walk an index over a fixed string are embedded as
structural recursions over an explicit fuel counter, called with fuel
strictly larger than the number of remaining characters; every loop
iteration consumes at least one character, so the fuel never runs out.
Structural fuel (rather than well-founded recursion) keeps every
definition kernel-reducible, so concrete runs evaluate under `decide`.
-/

namespace LvPy

/-- Whitespace characters skipped by the hand-written scanning loops in
`logstash_parser_regex.py` (`content[i] in ' \t\n'`). -/
def isScanWs (c : Char) : Bool := c == ' ' || c == '\t' || c == '\n'

/-- Whitespace in the sense of Python's `str.strip()` and the regex class
`\s`: space, tab, newline, carriage return, vertical tab, form feed. -/
def isPyWs (c : Char) : Bool :=
  c == ' ' || c == '\t' || c == '\n' || c == '\r' || c == '\x0b' || c == '\x0c'

/-- Python's regex class `\w`: ASCII letters, digits and underscore. -/
def isWordChar (c : Char) : Bool := c.isAlphanum || c == '_'

/-- Drop characters satisfying `p` from both ends of a character list
(Python `str.strip` with a character class). -/
def stripBoth (p : Char → Bool) (cs : List Char) : List Char :=
  ((cs.dropWhile p).reverse.dropWhile p).reverse

/-- Drop characters satisfying `p` from the right end only (Python `rstrip`). -/
def stripRight (p : Char → Bool) (cs : List Char) : List Char :=
  (cs.reverse.dropWhile p).reverse

/-- Python `str.strip()` on a string. -/
def pyStrip (s : String) : String := ⟨stripBoth isPyWs s.data⟩

/-- `needle` occurs at the head of `hay`. -/
def listStartsWith : List Char → List Char → Bool
  | [], _ => true
  | _ :: _, [] => false
  | a :: as, b :: bs => a == b && listStartsWith as bs

/-- `needle` occurs somewhere inside `hay` (Python's `needle in hay`). -/
def listHasSub (needle : List Char) (hay : List Char) : Bool :=
  match hay with
  | [] => listStartsWith needle []
  | _ :: t => listStartsWith needle hay || listHasSub needle t

/-- Substring test on strings: `strContains hay needle` is Python's
`needle in hay`. -/
def strContains (hay needle : String) : Bool := listHasSub needle.data hay.data

/-- Python `str.startswith` on strings. -/
def strStartsWith (s pre : String) : Bool := listStartsWith pre.data s.data

/-- ASCII lowercase of a character list (Python `str.lower()`). -/
def lowerList (cs : List Char) : List Char := cs.map Char.toLower

/-- Python `str.lower()` on a string. -/
def pyLower (s : String) : String := ⟨lowerList s.data⟩

/-- The decimal digit character for `n < 10`, as produced by Python `str(int)`. -/
def digitChar (n : Nat) : Char := Char.ofNat (48 + n)

/-- Fuel-driven accumulator loop producing the decimal digits of `n` in front
of `acc`; fuel larger than the digit count guarantees completion. -/
def natDigitsAux : Nat → Nat → List Char → List Char
  | 0, _, acc => acc
  | fuel + 1, n, acc =>
    if n < 10 then digitChar n :: acc
    else natDigitsAux fuel (n / 10) (digitChar (n % 10) :: acc)

/-- Decimal digit characters of `n`, exactly Python's `str(n)` for `n : Nat`. -/
def natDigits (n : Nat) : List Char := natDigitsAux (n + 1) n []

/-- Python's `str(n)` for a natural number. -/
def natStr (n : Nat) : String := ⟨natDigits n⟩

/-- A decoded Logstash setting value, the exact range of `_parse_value` in
`logstash_parser_regex.py`: string, list of strings, shallow string-to-string
hash, boolean, or non-negative integer (`str.isdigit` admits only digits). -/
inductive LValue where
  | str (s : String)
  | list (xs : List String)
  | hash (m : List (String × String))
  | bool (b : Bool)
  | int (n : Nat)
deriving Repr, DecidableEq

/-- Insert-or-overwrite on an association list: Python's `d[k] = v`
(the key keeps its first position; the value is replaced). -/
def dictInsert {α : Type} (d : List (String × α)) (k : String) (v : α) :
    List (String × α) :=
  match d with
  | [] => [(k, v)]
  | (k', v') :: rest =>
    if k' = k then (k', v) :: rest else (k', v') :: dictInsert rest k v

/-- First-match association lookup: Python's `d.get(k)` for the dictionaries
built by `dictInsert` (whose keys are distinct). -/
def dictGet {α : Type} (d : List (String × α)) (k : String) : Option α :=
  match d with
  | [] => none
  | (k', v') :: rest => if k' = k then some v' else dictGet rest k

/-- Python's `k in d` membership test on a dictionary. -/
def dictHas {α : Type} (d : List (String × α)) (k : String) : Bool :=
  (dictGet d k).isSome

/-- Fuel-driven splitter for `re.split(r',\s*', ...)`: each comma together
with the maximal whitespace run following it separates two items. -/
def splitCommaWsAux : Nat → List Char → List (List Char)
  | 0, cs => [cs]
  | _ + 1, [] => [[]]
  | fuel + 1, c :: rest =>
    if c == ',' then
      [] :: splitCommaWsAux fuel (rest.dropWhile isPyWs)
    else
      match splitCommaWsAux fuel rest with
      | [] => [[c]]
      | item :: items => (c :: item) :: items

/-- `re.split(r',\s*', ...)` on a character list. -/
def splitCommaWs (cs : List Char) : List (List Char) :=
  splitCommaWsAux (cs.length + 1) cs

/-- One attempt of the pattern `"([^"]+)"\s*=>\s*"([^"]+)"` at the head of
`cs` (used by `_parse_value` for shallow hash values), returning the captured
pair and the remainder after the match. -/
def hashPairAt (cs : List Char) : Option ((String × String) × List Char) :=
  match cs with
  | '"' :: rest =>
    let key := rest.takeWhile (· != '"')
    if key.isEmpty then none
    else
      match rest.drop key.length with
      | '"' :: rest2 =>
        match rest2.dropWhile isPyWs with
        | '=' :: '>' :: rest4 =>
          match rest4.dropWhile isPyWs with
          | '"' :: rest6 =>
            let val := rest6.takeWhile (· != '"')
            if val.isEmpty then none
            else
              match rest6.drop val.length with
              | '"' :: rest7 => some ((⟨key⟩, ⟨val⟩), rest7)
              | _ => none
          | _ => none
        | _ => none
      | _ => none
  | _ => none

/-- Fuel-driven scan for all non-overlapping matches of the hash-pair
pattern, left to right (the semantics of `re.finditer`). -/
def hashPairsAux : Nat → List Char → List (String × String)
  | 0, _ => []
  | fuel + 1, cs =>
    match cs with
    | [] => []
    | c :: rest =>
      match hashPairAt (c :: rest) with
      | some (pair, rest') => pair :: hashPairsAux fuel rest'
      | none => hashPairsAux fuel rest

/-- All matches of `"([^"]+)"\s*=>\s*"([^"]+)"` in `cs`. -/
def hashPairs (cs : List Char) : List (String × String) :=
  hashPairsAux (cs.length + 1) cs

/-- Python `s.isdigit()` restricted to ASCII: non-empty and all digits. -/
def isAllDigits (s : String) : Bool :=
  !s.data.isEmpty && s.data.all Char.isDigit

/-- The normalized token `_parse_value` works on: the raw value stripped of
surrounding whitespace and then of trailing commas
(`value_str.strip().rstrip(',')`). -/
def valueToken (valueStr : String) : List Char :=
  stripRight (· == ',') (stripBoth isPyWs valueStr.data)

/-- `_parse_value` from `logstash_parser_regex.py`: decode one raw setting
value. On the normalized token, in order: quoted strings, `[...]` arrays,
`{...}` shallow hashes (falling back to the raw text when no quoted pair
is found), case-insensitive booleans, all-digit integers, and raw
strings. -/
def parse_value (valueStr : String) : LValue :=
  let t : List Char := valueToken valueStr
  let ts : String := ⟨t⟩
  if listStartsWith ['"'] t || listStartsWith ['\''] t then
    .str ⟨stripBoth (· == '\'') (stripBoth (· == '"') t)⟩
  else if listStartsWith ['['] t then
    let arrayContent := stripBoth (fun c => c == '[' || c == ']') t
    .list ((splitCommaWs arrayContent).map
      (fun item => ⟨stripBoth (· == '\'') (stripBoth (· == '"') item)⟩))
  else if listStartsWith ['{'] t then
    let hashContent := stripBoth (fun c => c == '{' || c == '}') t
    let pairs := hashPairs hashContent
    if pairs.isEmpty then .str ts
    else .hash (pairs.foldl (fun d kv => dictInsert d kv.1 kv.2) [])
  else if pyLower ts == "true" || pyLower ts == "false" then
    .bool (pyLower ts == "true")
  else if isAllDigits ts then
    .int (ts.data.foldl (fun a c => 10 * a + (c.toNat - 48)) 0)
  else
    .str ts

end LvPy

namespace LvPy

/-- Zero-width test for the regex lookahead `(?=\s+\w+\s*=>)` at the start of
`rem`: at least one whitespace character, then a word run, optional
whitespace, then `=>`. -/
def lookaheadKv (rem : List Char) : Bool :=
  let ws := rem.takeWhile isPyWs
  if ws.isEmpty then false
  else
    let r1 := rem.drop ws.length
    let w := r1.takeWhile isWordChar
    if w.isEmpty then false
    else
      match (r1.drop w.length).dropWhile isPyWs with
      | '=' :: '>' :: _ => true
      | _ => false

/-- A lazy value match may end when the remainder starts the next-pair
lookahead, or at `$` (end of input, or just before one final newline). -/
def valueEndOk (rem : List Char) : Bool :=
  match rem with
  | [] => true
  | ['\n'] => true
  | _ => lookaheadKv rem

/-- Grow the lazy group `(.+?)` one character at a time (under `re.DOTALL`)
until `valueEndOk` holds, returning the matched value and the remainder.
The accumulator is kept reversed. -/
def scanValueAux : Nat → List Char → List Char → List Char × List Char
  | 0, acc, rem => (acc.reverse, rem)
  | fuel + 1, acc, rem =>
    match rem with
    | [] => (acc.reverse, [])
    | c :: rest =>
      if valueEndOk rest then ((c :: acc).reverse, rest)
      else scanValueAux fuel (c :: acc) rest

/-- `_parse_config` from `logstash_parser_regex.py`: scan for every match of
`(\w+)\s*=>\s*(.+?)(?=\s+\w+\s*=>|$)` (DOTALL) and store each decoded value
under its key. Only the maximal `\w+` and `\s*` runs can take part in a
match, so the scan is deterministic; when `\s*` after `=>` reaches the end
of the input, the engine backtracks one whitespace character into the
mandatory `(.+?)` group. -/
def parseConfigAux : Nat → List Char → List (String × LValue) →
    List (String × LValue)
  | 0, _, acc => acc
  | fuel + 1, cs, acc =>
    match cs with
    | [] => acc
    | c :: rest =>
      if isWordChar c then
        let key := cs.takeWhile isWordChar
        match (cs.drop key.length).dropWhile isPyWs with
        | '=' :: '>' :: after3 =>
          let ws := after3.takeWhile isPyWs
          let v0 := after3.drop ws.length
          if v0.isEmpty then
            match ws.getLast? with
            | some wc => dictInsert acc ⟨key⟩ (parse_value ⟨[wc]⟩)
            | none => parseConfigAux fuel rest acc
          else
            let vr := scanValueAux (v0.length + 1) [] v0
            parseConfigAux fuel vr.2 (dictInsert acc ⟨key⟩ (parse_value ⟨vr.1⟩))
        | _ => parseConfigAux fuel rest acc
      else parseConfigAux fuel rest acc

/-- `_parse_config` on a block of `key => value` text. -/
def parse_config (content : List Char) : List (String × LValue) :=
  parseConfigAux (content.length + 1) content []

/-- Advance `i` past the scan whitespace of `cs` (the
`while content[i] in ' \t\n'` loops). -/
def skipWsAux : Nat → List Char → Nat → Nat
  | 0, _, i => i
  | fuel + 1, cs, i =>
    match (cs.drop i).head? with
    | some c => if isScanWs c then skipWsAux fuel cs (i + 1) else i
    | none => i

/-- Index of the first non-whitespace character at or after `i`. -/
def skipWs (cs : List Char) (i : Nat) : Nat := skipWsAux (cs.length + 1) cs i

/-- Brace-depth counting loop (`while i < len(content) and brace_depth > 0`),
returning the index just after the closing brace (or the end of input). -/
def scanBracesAux : Nat → List Char → Nat → Nat → Nat
  | 0, _, i, _ => i
  | fuel + 1, cs, i, depth =>
    if depth == 0 then i
    else
      match (cs.drop i).head? with
      | none => i
      | some c =>
        scanBracesAux fuel cs (i + 1)
          (if c == '{' then depth + 1 else if c == '}' then depth - 1 else depth)

/-- Brace counting from index `i` at given starting depth. -/
def scanBraces (cs : List Char) (i : Nat) (depth : Nat) : Nat :=
  scanBracesAux (cs.length + 1) cs i depth

/-- Try one block keyword at index `i`: the slice must lowercase to the
keyword and the following character, when present, must not be
alphanumeric (the whole-word check). -/
def kwAccept (cs : List Char) (i : Nat) (kw : List Char) : Bool :=
  lowerList ((cs.drop i).take kw.length) == kw &&
    (match (cs.drop (i + kw.length)).head? with
     | some c => !c.isAlphanum
     | none => true)

/-- The keyword scan of `_extract_blocks`: try `input`, `filter`, `output`
in that order (a failed whole-word check falls through to the next one). -/
def findKeyword (cs : List Char) (i : Nat) : Option (List Char) :=
  if kwAccept cs i "input".data then some "input".data
  else if kwAccept cs i "filter".data then some "filter".data
  else if kwAccept cs i "output".data then some "output".data
  else none

/-- Main loop of `_extract_blocks`: skip whitespace, look for a block
keyword followed (after whitespace) by `{`, and delimit the block body by
brace counting. Each triple is (keyword, body, keyword start index). -/
def extractBlocksAux : Nat → List Char → Nat →
    List (List Char × List Char × Nat) → List (List Char × List Char × Nat)
  | 0, _, _, acc => acc
  | fuel + 1, cs, i, acc =>
    let j := skipWs cs i
    if cs.length ≤ j then acc
    else
      match findKeyword cs j with
      | some kw =>
        let j2 := skipWs cs (j + kw.length)
        match (cs.drop j2).head? with
        | some '{' =>
          let cStart := j2 + 1
          let e := scanBraces cs cStart 1
          let blockContent := (cs.drop cStart).take (e - 1 - cStart)
          extractBlocksAux fuel cs e (acc ++ [(kw, blockContent, j)])
        | _ => extractBlocksAux fuel cs j2 acc
      | none => extractBlocksAux fuel cs (j + 1) acc

/-- `_extract_blocks` from `logstash_parser_regex.py`. -/
def extract_blocks (cs : List Char) : List (List Char × List Char × Nat) :=
  extractBlocksAux (cs.length + 1) cs 0 []

/-- Main loop of `_extract_plugins`: inside a block body, find
`name { ... }` plugin declarations by the same whitespace-skip,
identifier-scan and brace-count algorithm. The line number is computed as
in the source: newlines of `full[: blockStart + nameStart] ` plus one,
where `blockStart` is the block *keyword* index in the full text while
`nameStart` is relative to the block *body*. -/
def extractPluginsAux : Nat → List Char → Nat → List Char → Nat →
    List (String × List (String × LValue) × Nat) →
    List (String × List (String × LValue) × Nat)
  | 0, _, _, _, _, acc => acc
  | fuel + 1, blk, blockStart, full, i, acc =>
    let j := skipWs blk i
    if blk.length ≤ j then acc
    else
      match (blk.drop j).head? with
      | none => acc
      | some c =>
        if c.isAlpha || c == '_' then
          let name := (blk.drop j).takeWhile isWordChar
          let j2 := skipWs blk (j + name.length)
          match (blk.drop j2).head? with
          | some '{' =>
            let cfgStart := j2 + 1
            let e := scanBraces blk cfgStart 1
            let cfgContent := (blk.drop cfgStart).take (e - 1 - cfgStart)
            let line := (full.take (blockStart + j)).count '\n' + 1
            extractPluginsAux fuel blk blockStart full e
              (acc ++ [(⟨name⟩, parse_config cfgContent, line)])
          | _ => extractPluginsAux fuel blk blockStart full j2 acc
        else extractPluginsAux fuel blk blockStart full (j + 1) acc

/-- `_extract_plugins` on one block body. -/
def extract_plugins (blk : List Char) (blockStart : Nat) (full : List Char) :
    List (String × List (String × LValue) × Nat) :=
  extractPluginsAux (blk.length + 1) blk blockStart full 0 []

end LvPy

namespace LvPy

/-- `PluginType` from `models/__init__.py`. -/
inductive PluginType where
  | INPUT | FILTER | OUTPUT
deriving Repr, DecidableEq

/-- `ComponentType` from `models/__init__.py`. -/
inductive ComponentType where
  | SOURCE | TRANSFORM | SINK
deriving Repr, DecidableEq

/-- `ErrorType` from `models/__init__.py`. -/
inductive ErrorType where
  | PARSE_ERROR | VALIDATION_ERROR | TRANSFORMATION_ERROR
deriving Repr, DecidableEq

/-- `LogstashPlugin` from `models/logstash_config.py`. The `conditionals`
field is omitted: the live parser always leaves it `None`. The pydantic
bound `line_number > 0` always holds (the parser computes a count plus one). -/
structure LogstashPlugin where
  plugin_type : PluginType
  plugin_name : String
  config : List (String × LValue)
  line_number : Nat
deriving Repr, DecidableEq

/-- `LogstashConfiguration` from `models/logstash_config.py`. The
file-existence validator is a filesystem concern outside the embedding. -/
structure LogstashConfiguration where
  file_path : String
  inputs : List LogstashPlugin
  filters : List LogstashPlugin
  outputs : List LogstashPlugin
  raw_content : String
deriving Repr, DecidableEq

/-- The plugin triples collected for one role by the block loop of
`parse_file_regex`: every block of that keyword, in order, contributes its
extracted plugins. -/
def extractRolePlugins (cs : List Char) (role : String) :
    List (String × List (String × LValue) × Nat) :=
  ((extract_blocks cs).filter (fun b => b.1 = role.data)).flatMap
    (fun b => extract_plugins b.2.1 b.2.2 cs)

/-- `parse_file_regex` from `logstash_parser_regex.py`, on the raw text
(file reading and existence checking are outside the embedding): extract
blocks, extract each block's plugins, group by role, and fail unless at
least one input and one output plugin were found. The per-block
`line_number` local in the source is dead code and not modelled. -/
def parse_file_regex (filePath : String) (rawContent : String) :
    Except String LogstashConfiguration :=
  let mk := fun (ty : PluginType) (tri : String × List (String × LValue) × Nat) =>
    LogstashPlugin.mk ty tri.1 tri.2.1 tri.2.2
  let inputs := (extractRolePlugins rawContent.data "input").map (mk .INPUT)
  let filters := (extractRolePlugins rawContent.data "filter").map (mk .FILTER)
  let outputs := (extractRolePlugins rawContent.data "output").map (mk .OUTPUT)
  if inputs.isEmpty then
    .error ("No input plugins found in " ++ filePath)
  else if outputs.isEmpty then
    .error ("No output plugins found in " ++ filePath)
  else
    .ok ⟨filePath, inputs, filters, outputs, rawContent⟩

/-- Python `repr` of a short string: quoted with single quotes, or with
double quotes when the text contains a single quote but no double quote.
Escape sequences (strings containing both quote kinds, backslashes or
control characters) are outside the modelled fragment; no such string is
involved in the concrete runs below. -/
def pyReprStr (s : String) : String :=
  if listHasSub ['\''] s.data && !listHasSub ['"'] s.data then
    "\"" ++ s ++ "\""
  else
    "'" ++ s ++ "'"

/-- Python `str()` of a decoded value, as interpolated by f-strings:
strings verbatim, numbers in decimal, booleans capitalized, containers in
`repr` form. -/
def pyStr : LValue → String
  | .str s => s
  | .int n => natStr n
  | .bool b => if b then "True" else "False"
  | .list xs => "[" ++ String.intercalate ", " (xs.map pyReprStr) ++ "]"
  | .hash m =>
    "\x7b" ++ String.intercalate ", "
      (m.map (fun kv => pyReprStr kv.1 ++ ": " ++ pyReprStr kv.2)) ++ "\x7d"

/-- Python `repr` of a decoded value (strings get quoted; containers and
scalars render as in `str`). -/
def pyRepr : LValue → String
  | .str s => pyReprStr s
  | v => pyStr v

/-- Python `str()` of a plugin's settings dictionary, as used for
`original_config=str(plugin.config)` in `migration.py`. -/
def pyStrConfig (cfg : List (String × LValue)) : String :=
  "\x7b" ++ String.intercalate ", "
    (cfg.map (fun kv => pyReprStr kv.1 ++ ": " ++ pyRepr kv.2)) ++ "\x7d"

/-- Target-native values appearing in generated Vector component settings
(`config` of `VectorComponent`): strings, string lists, numbers, booleans
and nested tables. -/
inductive VValue where
  | str (s : String)
  | list (xs : List String)
  | int (n : Nat)
  | bool (b : Bool)
  | dict (m : List (String × VValue))
deriving Repr

/-- Injection of a decoded Logstash value into a Vector setting value, for
the places where the source stores a parsed value unchanged. -/
def lvToV : LValue → VValue
  | .str s => .str s
  | .list xs => .list xs
  | .hash m => .dict (m.map (fun kv => (kv.1, .str kv.2)))
  | .bool b => .bool b
  | .int n => .int n

/-- `VectorComponent` from `models/vector_config.py`. -/
structure VectorComponent where
  component_type : ComponentType
  component_kind : String
  config : List (String × VValue)
  inputs : List String
  comments : List String
deriving Repr

/-- `VectorComponent.validate_final`: sources must have no inputs,
transforms and sinks at least one. `true` means the check passes. -/
def validate_final (c : VectorComponent) : Bool :=
  match c.component_type with
  | .SOURCE => c.inputs.isEmpty
  | .TRANSFORM => !c.inputs.isEmpty
  | .SINK => !c.inputs.isEmpty

/-- `VectorConfiguration` from `models/vector_config.py`; `global_options`
is always the empty dictionary in the orchestrators and is omitted. -/
structure VectorConfiguration where
  file_path : String
  sources : List (String × VectorComponent)
  transforms : List (String × VectorComponent)
  sinks : List (String × VectorComponent)
deriving Repr

/-- Constructing a `VectorConfiguration` runs the pydantic validation:
`sources` and `sinks` must be non-empty (`min_length=1`) and every
component must pass `validate_final`. A failed validation raises, which
the embedding renders as `none`. -/
def mkVectorConfiguration (fp : String)
    (sources transforms sinks : List (String × VectorComponent)) :
    Option VectorConfiguration :=
  if sources.isEmpty || sinks.isEmpty then none
  else if (sources ++ transforms ++ sinks).all (fun p => validate_final p.2) then
    some ⟨fp, sources, transforms, sinks⟩
  else none

end LvPy

namespace LvPy

/-- `MigrationError` from `models/migration_report.py`. The `details` text of
a caught Python exception is not modelled and is rendered as `none`. -/
structure MigrationError where
  error_type : ErrorType
  message : String
  file_path : String
  line_number : Option Nat := none
  details : Option String := none
deriving Repr, DecidableEq

/-- `UnsupportedPlugin` from `models/migration_report.py`. -/
structure UnsupportedPlugin where
  plugin_name : String
  plugin_type : PluginType
  line_number : Nat
  original_config : String
  manual_migration_guidance : String
  vector_alternatives : List String
deriving Repr, DecidableEq

/-- `PluginMigration` from `models/migration_report.py`. -/
structure PluginMigration where
  logstash_plugin : String
  vector_components : List String
  notes : Option String := none
deriving Repr, DecidableEq

/-- `MigrationReport` from `models/migration_report.py`. The wall-clock
`timestamp` field is outside the embedding. -/
structure MigrationReport where
  source_file : String
  target_file : String
  supported_plugins : List PluginMigration
  unsupported_plugins : List UnsupportedPlugin
  errors : List MigrationError
  warnings : List String
deriving Repr, DecidableEq

/-- `MigrationReport.success_rate`: the on-demand property
`supported / (supported + unsupported)`, `0.0` when both lists are empty.
Python float division of these small integers is modelled exactly by
rational division. -/
def success_rate (r : MigrationReport) : ℚ :=
  let total := r.supported_plugins.length + r.unsupported_plugins.length
  if 0 < total then (r.supported_plugins.length : ℚ) / (total : ℚ) else 0

/-- `UNSUPPORTED_GUIDANCE` from `transformers/__init__.py`. -/
def UNSUPPORTED_GUIDANCE : List (String × String × List String) :=
  [("kafka",
    ("The Logstash kafka input can be migrated to Vector's kafka source.\nUpdate the configuration below with the correct kafka settings.",
     ["kafka source: https://vector.dev/docs/reference/configuration/sources/kafka/"])),
   ("ruby",
    ("The Logstash ruby filter executes custom Ruby code for event processing.\nIn Vector, use the 'remap' transform with VRL (Vector Remap Language) to achieve similar functionality.\nVRL provides built-in functions for string manipulation and field transformation.",
     ["remap transform with VRL: https://vector.dev/docs/reference/vrl/"])),
   ("jdbc",
    ("The Logstash JDBC input/filter is not directly supported in Vector.\nConsider using a separate database connector or ETL tool to feed data into Vector via HTTP or file sources.",
     ["http source: https://vector.dev/docs/reference/configuration/sources/http/",
      "file source: https://vector.dev/docs/reference/configuration/sources/file/"]))]

/-- `get_migration_guidance` from `transformers/__init__.py`: catalog lookup
with a generic fallback template. -/
def get_migration_guidance (pluginName : String) : String × List String :=
  match (UNSUPPORTED_GUIDANCE.find? (fun e => e.1 == pluginName)) with
  | some e => e.2
  | none =>
    ("The Logstash " ++ pluginName ++
       " plugin is not currently supported for automatic migration.\nPlease refer to Vector documentation for equivalent components.",
     ["Vector documentation: https://vector.dev/docs/"])

/-- `_format_plugin_config` from `transformers/__init__.py`: render each
setting back to `key => value` text, quoting string values. -/
def format_plugin_config (p : LogstashPlugin) : String :=
  String.intercalate "\n"
    (p.config.map (fun kv =>
      match kv.2 with
      | .str s => kv.1 ++ " => \"" ++ s ++ "\""
      | v => kv.1 ++ " => " ++ pyStr v))

/-- `FileInputTransformer.transform`: map `path` to a list-valued `include`
(dropping the key when the decoded path is neither string nor list, and
defaulting when absent) and `start_position` to `read_from`. -/
def fileInputTransform (p : LogstashPlugin) : VectorComponent :=
  let includePart : List (String × VValue) :=
    match dictGet p.config "path" with
    | some (.str s) => [("include", .list [s])]
    | some (.list xs) => [("include", .list xs)]
    | some _ => []
    | none => [("include", .list ["/var/log/*.log"])]
  let readFrom :=
    if dictGet p.config "start_position" = some (.str "beginning")
    then "beginning" else "end"
  ⟨.SOURCE, "file", includePart ++ [("read_from", .str readFrom)], [], []⟩

/-- `BeatsInputTransformer.transform`: socket source at `host:port`. -/
def beatsInputTransform (p : LogstashPlugin) : VectorComponent :=
  let port := ((dictGet p.config "port").getD (.int 5044))
  let host := ((dictGet p.config "host").getD (.str "0.0.0.0"))
  ⟨.SOURCE, "socket",
   [("address", .str (pyStr host ++ ":" ++ pyStr port)), ("mode", .str "tcp")],
   [],
   ["NOTE: Beats input migrated to TCP socket",
    "For full Beats protocol support, consider using Filebeat → Vector directly"]⟩

/-- `GrokFilterTransformer.transform`: one `parse_groks!` line per
field/pattern pair of the `match` hash (the pattern is wrapped in a
singleton list and rendered with Python `str`), or a TODO comment. -/
def grokFilterTransform (p : LogstashPlugin) : VectorComponent :=
  let vrlLines :=
    match dictGet p.config "match" with
    | some (.hash m) =>
      m.map (fun kv =>
        ". = parse_groks!(." ++ kv.1 ++ ", " ++ pyStr (.list [kv.2]) ++ ")")
    | _ => []
  let lines := if vrlLines.isEmpty then ["# TODO: Add grok patterns"] else vrlLines
  ⟨.TRANSFORM, "remap",
   [("source", .str (String.intercalate "\n" lines))], [], []⟩

/-- The `convert` type table of `MutateFilterTransformer`. -/
def mutateTypeMap (t : String) : String :=
  if t == "integer" then "int"
  else if t == "float" then "float"
  else if t == "string" then "string"
  else if t == "boolean" then "bool"
  else "string"

/-- `MutateFilterTransformer.transform`. Iterating `remove_field` raises a
`TypeError` when the decoded value is a number or boolean (rendered as
`none`); a hash iterates over its keys. -/
def mutateFilterTransform (p : LogstashPlugin) : Option VectorComponent :=
  let removePart : Option (List String) :=
    match dictGet p.config "remove_field" with
    | none => some []
    | some (.str s) => some ["del(." ++ s ++ ")"]
    | some (.list xs) => some (xs.map (fun f => "del(." ++ f ++ ")"))
    | some (.hash m) => some (m.map (fun kv => "del(." ++ kv.1 ++ ")"))
    | some (.int _) => none
    | some (.bool _) => none
  match removePart with
  | none => none
  | some rm =>
    let rn :=
      match dictGet p.config "rename" with
      | some (.hash m) =>
        m.flatMap (fun kv =>
          ["." ++ kv.2 ++ " = ." ++ kv.1, "del(." ++ kv.1 ++ ")"])
      | _ => []
    let af :=
      match dictGet p.config "add_field" with
      | some (.hash m) =>
        m.map (fun kv => "." ++ kv.1 ++ " = \"" ++ kv.2 ++ "\"")
      | _ => []
    let cv :=
      match dictGet p.config "convert" with
      | some (.hash m) =>
        m.map (fun kv =>
          "." ++ kv.1 ++ " = to_" ++ mutateTypeMap kv.2 ++ "!(." ++ kv.1 ++ ")")
      | _ => []
    let all := rm ++ rn ++ af ++ cv
    let lines := if all.isEmpty then ["# TODO: Add mutate operations"] else all
    some ⟨.TRANSFORM, "remap",
      [("source", .str (String.intercalate "\n" lines))], [], []⟩

/-- The Logstash-to-strptime table of `DateFilterTransformer`. -/
def dateFormatMap (f : String) : String :=
  if f == "ISO8601" then "%+"
  else if f == "UNIX" then "%s"
  else if f == "UNIX_MS" then "%s"
  else f

/-- `DateFilterTransformer.transform`: a `parse_timestamp!` line when
`match` decodes to a list with at least two entries, a TODO comment
otherwise. -/
def dateFilterTransform (p : LogstashPlugin) : VectorComponent :=
  let lines :=
    match dictGet p.config "match" with
    | some (.list (field :: fmt :: _)) =>
      let target :=
        match dictGet p.config "target" with
        | some v => pyStr v
        | none => "@timestamp"
      ["." ++ target ++ " = parse_timestamp!(." ++ field ++ ", format: \"" ++
        dateFormatMap fmt ++ "\")"]
    | _ => ["# TODO: Configure date parsing"]
  ⟨.TRANSFORM, "remap",
   [("source", .str (String.intercalate "\n" lines))], [], []⟩

/-- Prefix of `cs` before the first occurrence of `needle` (Python
`s.split(needle)[0]` when `needle` occurs in `s`). -/
def takeBeforeSub (needle : List Char) : List Char → List Char
  | [] => []
  | c :: rest =>
    if listStartsWith needle (c :: rest) then []
    else c :: takeBeforeSub needle rest

/-- `ElasticsearchOutputTransformer.transform`. Iterating a numeric or
boolean `hosts` value raises (rendered as `none`), as does `"%{".__contains__`
on a numeric or boolean `index` and `str.split` on a list `index` that
contains the element `"%{"`; a hash iterates over its keys. -/
def esOutputTransform (p : LogstashPlugin) : Option VectorComponent :=
  let fix := fun (h : String) =>
    if strStartsWith h "http://" || strStartsWith h "https://" then h
    else "http://" ++ h
  let endpointsPart : Option (List (String × VValue)) :=
    match dictGet p.config "hosts" with
    | none => some [("endpoints", .list ["http://localhost:9200"])]
    | some (.str s) => some [("endpoints", .list [fix s])]
    | some (.list xs) => some [("endpoints", .list (xs.map fix))]
    | some (.hash m) => some [("endpoints", .list ((m.map Prod.fst).map fix))]
    | some (.int _) => none
    | some (.bool _) => none
  match endpointsPart with
  | none => none
  | some eps =>
    let indexPart : Option (List (String × VValue)) :=
      match dictGet p.config "index" with
      | none => some []
      | some (.str s) =>
        if strContains s "%\x7b" then
          some [("index", .str ⟨stripRight (· == '-') (takeBeforeSub "%\x7b".data s.data)⟩)]
        else some [("index", .str s)]
      | some (.list xs) =>
        if xs.contains "%\x7b" then none else some [("index", .list xs)]
      | some (.hash m) =>
        if (m.map Prod.fst).contains "%\x7b" then none
        else some [("index", lvToV (.hash m))]
      | some (.int _) => none
      | some (.bool _) => none
    match indexPart with
    | none => none
    | some idx =>
      let auth : List (String × VValue) :=
        if dictHas p.config "user" || dictHas p.config "password" then
          [("auth", .dict
            [("strategy", .str "basic"),
             ("user", lvToV ((dictGet p.config "user").getD (.str "elastic"))),
             ("password", lvToV ((dictGet p.config "password").getD (.str "")))])]
        else []
      let comments :=
        match dictGet p.config "index" with
        | some (.str s) =>
          if strContains s "%\x7b" then
            ["TODO: Convert Logstash index template '" ++ s ++ "' to Vector format"]
          else []
        | _ => []
      some ⟨.SINK, "elasticsearch",
        eps ++ [("mode", .str "bulk")] ++ idx ++ auth, [], comments⟩

/-- The codec table of `FileOutputTransformer`. -/
def fileCodecMap (c : String) : String :=
  if c == "json" then "json"
  else if c == "json_lines" then "json"
  else if c == "line" then "text"
  else if c == "plain" then "text"
  else if c == "rubydebug" then "json"
  else "json"

/-- `FileOutputTransformer.transform`. A list or hash `codec` value is
unhashable in the Python table lookup and raises (rendered as `none`);
numbers and booleans fall through to the default codec. -/
def fileOutputTransform (p : LogstashPlugin) : Option VectorComponent :=
  let pathEntry : List (String × VValue) :=
    match dictGet p.config "path" with
    | some v => [("path", lvToV v)]
    | none => [("path", .str "/var/log/vector-output.log")]
  let vcodec : Option String :=
    match (dictGet p.config "codec").getD (.str "json_lines") with
    | .str s => some (fileCodecMap s)
    | .int _ => some "json"
    | .bool _ => some "json"
    | .list _ => none
    | .hash _ => none
  match vcodec with
  | none => none
  | some c =>
    some ⟨.SINK, "file",
      pathEntry ++ [("encoding", .dict [("codec", .str c)])], [], []⟩

/-- `get_transformer` over the registry populated by
`_register_all_transformers`: `file`/`beats` inputs, `grok`/`mutate`/`date`
filters, `elasticsearch`/`file` outputs. A transformer that would raise a
Python exception returns `none`. -/
def get_transformer (ty : PluginType) (name : String) :
    Option (LogstashPlugin → Option VectorComponent) :=
  match ty with
  | .INPUT =>
    if name == "file" then some (fun p => some (fileInputTransform p))
    else if name == "beats" then some (fun p => some (beatsInputTransform p))
    else none
  | .FILTER =>
    if name == "grok" then some (fun p => some (grokFilterTransform p))
    else if name == "mutate" then some mutateFilterTransform
    else if name == "date" then some (fun p => some (dateFilterTransform p))
    else none
  | .OUTPUT =>
    if name == "elasticsearch" then some esOutputTransform
    else if name == "file" then some fileOutputTransform
    else none

end LvPy

namespace LvPy

/-- Accumulated state of one role's loop in `migrate_config`: components
appended so far (keyed by assigned identifier), the identifier list kept
for chaining, and the report fragments. -/
structure StageAcc where
  comps : List (String × VectorComponent)
  ids : List String
  supported : List PluginMigration
  unsupported : List UnsupportedPlugin
  errors : List MigrationError
deriving Repr

/-- The empty loop state. -/
def StageAcc.empty : StageAcc := ⟨[], [], [], [], []⟩

/-- The `inputs → sources` loop of `migrate_config` (migration.py): an
unsupported plugin only yields an `UnsupportedPlugin` record, a raising
transformer yields a `TRANSFORMATION_ERROR`, and a successful transform is
stored under `f"{name}_input_{idx}"`. -/
def migrateInputsGo (path : String) : Nat → List LogstashPlugin → StageAcc → StageAcc
  | _, [], acc => acc
  | idx, p :: rest, acc =>
    match get_transformer p.plugin_type p.plugin_name with
    | none =>
      migrateInputsGo path (idx + 1) rest
        { acc with unsupported := acc.unsupported ++
            [⟨p.plugin_name, p.plugin_type, p.line_number, pyStrConfig p.config,
              "The '" ++ p.plugin_name ++
                "' input plugin is not currently supported. Please refer to Vector documentation for equivalent source types.",
              ["file", "socket", "http"]⟩] }
    | some tf =>
      match tf p with
      | some comp =>
        let cid := p.plugin_name ++ "_input_" ++ natStr idx
        migrateInputsGo path (idx + 1) rest
          { acc with
            comps := acc.comps ++ [(cid, comp)],
            ids := acc.ids ++ [cid],
            supported := acc.supported ++
              [⟨p.plugin_name ++ " (input)", [cid],
                some ("Migrated to Vector " ++ comp.component_kind ++ " source")⟩] }
      | none =>
        migrateInputsGo path (idx + 1) rest
          { acc with errors := acc.errors ++
              [⟨.TRANSFORMATION_ERROR,
                "Failed to transform " ++ p.plugin_name ++ " input",
                path, some p.line_number, none⟩] }

/-- The `filters → transforms` loop of `migrate_config`: a successful
transform is wired to the most recent transform if any, otherwise to all
source identifiers, and stored under `f"{name}_filter_{idx}"`. -/
def migrateFiltersGo (path : String) (sourceIds : List String) :
    Nat → List LogstashPlugin → StageAcc → StageAcc
  | _, [], acc => acc
  | idx, p :: rest, acc =>
    match get_transformer p.plugin_type p.plugin_name with
    | none =>
      migrateFiltersGo path sourceIds (idx + 1) rest
        { acc with unsupported := acc.unsupported ++
            [⟨p.plugin_name, p.plugin_type, p.line_number, pyStrConfig p.config,
              "The '" ++ p.plugin_name ++
                "' filter plugin is not currently supported. Consider using Vector's remap transform with VRL.",
              ["remap", "filter"]⟩] }
    | some tf =>
      match tf p with
      | some comp =>
        let cid := p.plugin_name ++ "_filter_" ++ natStr idx
        let wired :=
          { comp with inputs :=
              match acc.ids.getLast? with
              | some t => [t]
              | none => sourceIds }
        migrateFiltersGo path sourceIds (idx + 1) rest
          { acc with
            comps := acc.comps ++ [(cid, wired)],
            ids := acc.ids ++ [cid],
            supported := acc.supported ++
              [⟨p.plugin_name ++ " (filter)", [cid],
                some ("Migrated to Vector " ++ comp.component_kind ++ " transform")⟩] }
      | none =>
        migrateFiltersGo path sourceIds (idx + 1) rest
          { acc with errors := acc.errors ++
              [⟨.TRANSFORMATION_ERROR,
                "Failed to transform " ++ p.plugin_name ++ " filter",
                path, some p.line_number, none⟩] }

/-- The `outputs → sinks` loop of `migrate_config`: a successful transform
is wired to the last transform if any filters were created, otherwise to
all source identifiers, and stored under `f"{name}_output_{idx}"`. -/
def migrateOutputsGo (path : String) (sourceIds transformIds : List String) :
    Nat → List LogstashPlugin → StageAcc → StageAcc
  | _, [], acc => acc
  | idx, p :: rest, acc =>
    match get_transformer p.plugin_type p.plugin_name with
    | none =>
      migrateOutputsGo path sourceIds transformIds (idx + 1) rest
        { acc with unsupported := acc.unsupported ++
            [⟨p.plugin_name, p.plugin_type, p.line_number, pyStrConfig p.config,
              "The '" ++ p.plugin_name ++
                "' output plugin is not currently supported. Please refer to Vector documentation for equivalent sink types.",
              ["elasticsearch", "file", "console", "http"]⟩] }
    | some tf =>
      match tf p with
      | some comp =>
        let cid := p.plugin_name ++ "_output_" ++ natStr idx
        let wired :=
          { comp with inputs :=
              match transformIds.getLast? with
              | some t => [t]
              | none => sourceIds }
        migrateOutputsGo path sourceIds transformIds (idx + 1) rest
          { acc with
            comps := acc.comps ++ [(cid, wired)],
            supported := acc.supported ++
              [⟨p.plugin_name ++ " (output)", [cid],
                some ("Migrated to Vector " ++ comp.component_kind ++ " sink")⟩] }
      | none =>
        migrateOutputsGo path sourceIds transformIds (idx + 1) rest
          { acc with errors := acc.errors ++
              [⟨.TRANSFORMATION_ERROR,
                "Failed to transform " ++ p.plugin_name ++ " output",
                path, some p.line_number, none⟩] }

/-- The post-parse body of `migrate_config`: run the three role loops, then
assemble a `VectorConfiguration` only when at least one source and one sink
were produced (recording a descriptive error otherwise, or a validation
error if construction itself fails), and build the report. -/
def migrate_core (path outputPath : String) (cfg : LogstashConfiguration) :
    Option VectorConfiguration × MigrationReport :=
  let sIn := migrateInputsGo path 0 cfg.inputs .empty
  let sFil := migrateFiltersGo path sIn.ids 0 cfg.filters .empty
  let sOut := migrateOutputsGo path sIn.ids sFil.ids 0 cfg.outputs .empty
  let assembled : Option VectorConfiguration × List MigrationError :=
    if !sIn.comps.isEmpty && !sOut.comps.isEmpty then
      match mkVectorConfiguration outputPath sIn.comps sFil.comps sOut.comps with
      | some vc => (some vc, [])
      | none =>
        (none, [⟨.VALIDATION_ERROR, "Failed to create Vector configuration",
          path, none, none⟩])
    else if sIn.comps.isEmpty then
      (none, [⟨.TRANSFORMATION_ERROR,
        "No source components generated - cannot create valid Vector config",
        path, none, none⟩])
    else
      (none, [⟨.TRANSFORMATION_ERROR,
        "No sink components generated - cannot create valid Vector config",
        path, none, none⟩])
  (assembled.1,
   ⟨path, outputPath,
    sIn.supported ++ sFil.supported ++ sOut.supported,
    sIn.unsupported ++ sFil.unsupported ++ sOut.unsupported,
    sIn.errors ++ sFil.errors ++ sOut.errors ++ assembled.2,
    []⟩)

/-- `migrate_config` from `migration.py`, on raw text (file reading is
outside the embedding; `outputPath` is the already-resolved output path):
parse, and either report the parse error with no document, or run the
translation core. -/
def migrate_config (logstashConfPath rawContent outputPath : String) :
    Option VectorConfiguration × MigrationReport :=
  match parse_file_regex logstashConfPath rawContent with
  | .error e =>
    (none,
     ⟨logstashConfPath, outputPath, [], [],
      [⟨.PARSE_ERROR, e, logstashConfPath, none, none⟩], []⟩)
  | .ok cfg => migrate_core logstashConfPath outputPath cfg

end LvPy

namespace LvPy

/-- Split a character list at every occurrence of `c`
(Python `str.split` with a one-character separator). -/
def splitOnChar (c : Char) : List Char → List (List Char)
  | [] => [[]]
  | d :: rest =>
    if d == c then [] :: splitOnChar c rest
    else
      match splitOnChar c rest with
      | [] => [[d]]
      | item :: items => (d :: item) :: items

/-- Python `s.split("\n")` on a string. -/
def splitNl (s : String) : List String :=
  (splitOnChar '\n' s.data).map (fun cs => ⟨cs⟩)

/-- `Path.with_suffix(".toml")` on the textual path: replace the final
extension of the last path component (or append one). -/
def withTomlSuffix (p : String) : String :=
  let rev := p.data.reverse
  let lastComp := rev.takeWhile (· != '/')
  if lastComp.contains '.' then
    ⟨(rev.drop ((lastComp.takeWhile (· != '.')).length + 1)).reverse ++ ".toml".data⟩
  else p ++ ".toml"

/-- The literal comment block attached to every placeholder component in
`transform_config`: TODO marker, the original settings re-rendered and
indented line by line, the suggested alternatives, and the guidance text. -/
def mkPlaceholderComments (name roleWord fmt : String)
    (alternatives : List String) (guidance : String) : List String :=
  ["TODO: Manual migration required for unsupported plugin '" ++ name ++
     "' (" ++ roleWord ++ ")",
   "Original Logstash configuration:",
   "  " ++ name ++ " \x7b"]
  ++ (splitNl fmt).map (fun l => "    " ++ l)
  ++ ["  \x7d", "", "Vector alternatives to consider:"]
  ++ alternatives.map (fun a => "  - " ++ a)
  ++ ["", "Manual migration guidance:"]
  ++ (splitNl guidance).map (fun l => "  " ++ l)

/-- The identifier scheme of `transform_config`: `name_role` with the
position appended only from the second occupant of a role onward, and a
`_placeholder` marker for unsupported plugins. -/
def tId (name roleWord : String) (placeholder : Bool) (idx : Nat) : String :=
  name ++ "_" ++ roleWord ++ (if placeholder then "_placeholder" else "") ++
    (if 0 < idx then "_" ++ natStr idx else "")

/-- Accumulated state of one role's loop in `transform_config`. -/
structure TStageAcc where
  comps : List (String × VectorComponent)
  ids : List String
  supported : List PluginMigration
  unsupported : List UnsupportedPlugin
deriving Repr

/-- The empty `transform_config` loop state. -/
def TStageAcc.empty : TStageAcc := ⟨[], [], [], []⟩

/-- The inputs loop of `transform_config`: supported plugins are
transformed (an exception propagates out, rendered `none`); unsupported
plugins get an `UnsupportedPlugin` record plus an annotated placeholder
source that also enters the identifier list used for wiring. -/
def transformInputsGo : Nat → List LogstashPlugin → TStageAcc → Option TStageAcc
  | _, [], acc => some acc
  | idx, p :: rest, acc =>
    match get_transformer .INPUT p.plugin_name with
    | some tf =>
      match tf p with
      | none => none
      | some comp =>
        let cid := tId p.plugin_name "input" false idx
        transformInputsGo (idx + 1) rest
          { acc with
            comps := acc.comps ++ [(cid, comp)],
            ids := acc.ids ++ [cid],
            supported := acc.supported ++ [⟨p.plugin_name, [cid], none⟩] }
    | none =>
      let g := get_migration_guidance p.plugin_name
      let pid := tId p.plugin_name "input" true idx
      let comp : VectorComponent :=
        ⟨.SOURCE, p.plugin_name, [], [],
         mkPlaceholderComments p.plugin_name "input" (format_plugin_config p) g.2 g.1⟩
      transformInputsGo (idx + 1) rest
        { acc with
          comps := acc.comps ++ [(pid, comp)],
          ids := acc.ids ++ [pid],
          unsupported := acc.unsupported ++
            [⟨p.plugin_name, .INPUT, p.line_number, format_plugin_config p, g.1, g.2⟩] }

/-- The filters loop of `transform_config`: components (supported or
placeholder) read from all sources and all previous transforms. -/
def transformFiltersGo (sourceIds : List String) :
    Nat → List LogstashPlugin → TStageAcc → Option TStageAcc
  | _, [], acc => some acc
  | idx, p :: rest, acc =>
    match get_transformer .FILTER p.plugin_name with
    | some tf =>
      match tf p with
      | none => none
      | some comp =>
        let cid := tId p.plugin_name "filter" false idx
        let wired := { comp with inputs := sourceIds ++ acc.ids }
        transformFiltersGo sourceIds (idx + 1) rest
          { acc with
            comps := acc.comps ++ [(cid, wired)],
            ids := acc.ids ++ [cid],
            supported := acc.supported ++ [⟨p.plugin_name, [cid], none⟩] }
    | none =>
      let g := get_migration_guidance p.plugin_name
      let pid := tId p.plugin_name "filter" true idx
      let comp : VectorComponent :=
        ⟨.TRANSFORM, "remap",
         [("source", .str "# FIXME: Implement transformation logic")],
         sourceIds ++ acc.ids,
         mkPlaceholderComments p.plugin_name "filter" (format_plugin_config p) g.2 g.1⟩
      transformFiltersGo sourceIds (idx + 1) rest
        { acc with
          comps := acc.comps ++ [(pid, comp)],
          ids := acc.ids ++ [pid],
          unsupported := acc.unsupported ++
            [⟨p.plugin_name, .FILTER, p.line_number, format_plugin_config p, g.1, g.2⟩] }

/-- The outputs loop of `transform_config`: components (supported or
placeholder) read from all transforms, or from all sources when no
transform exists. -/
def transformOutputsGo (sourceIds transformIds : List String) :
    Nat → List LogstashPlugin → TStageAcc → Option TStageAcc
  | _, [], acc => some acc
  | idx, p :: rest, acc =>
    let wireIds := if transformIds.isEmpty then sourceIds else transformIds
    match get_transformer .OUTPUT p.plugin_name with
    | some tf =>
      match tf p with
      | none => none
      | some comp =>
        let cid := tId p.plugin_name "output" false idx
        let wired := { comp with inputs := wireIds }
        transformOutputsGo sourceIds transformIds (idx + 1) rest
          { acc with
            comps := acc.comps ++ [(cid, wired)],
            supported := acc.supported ++ [⟨p.plugin_name, [cid], none⟩] }
    | none =>
      let g := get_migration_guidance p.plugin_name
      let pid := tId p.plugin_name "output" true idx
      let comp : VectorComponent :=
        ⟨.SINK, p.plugin_name, [], wireIds,
         mkPlaceholderComments p.plugin_name "output" (format_plugin_config p) g.2 g.1⟩
      transformOutputsGo sourceIds transformIds (idx + 1) rest
        { acc with
          comps := acc.comps ++ [(pid, comp)],
          unsupported := acc.unsupported ++
            [⟨p.plugin_name, .OUTPUT, p.line_number, format_plugin_config p, g.1, g.2⟩] }

/-- `transform_config` from `transformers/__init__.py`: run the three role
loops, then construct the `VectorConfiguration` (whose pydantic validation
may raise) and the report. An uncaught exception anywhere is `none`. -/
def transform_config (cfg : LogstashConfiguration) :
    Option (VectorConfiguration × MigrationReport) :=
  match transformInputsGo 0 cfg.inputs .empty with
  | none => none
  | some sIn =>
    match transformFiltersGo sIn.ids 0 cfg.filters .empty with
    | none => none
    | some sFil =>
      match transformOutputsGo sIn.ids sFil.ids 0 cfg.outputs .empty with
      | none => none
      | some sOut =>
        match mkVectorConfiguration (withTomlSuffix cfg.file_path)
            sIn.comps sFil.comps sOut.comps with
        | none => none
        | some vc =>
          some (vc,
            ⟨cfg.file_path, vc.file_path,
             sIn.supported ++ sFil.supported ++ sOut.supported,
             sIn.unsupported ++ sFil.unsupported ++ sOut.unsupported,
             [], []⟩)

/-- A configuration whose only input and only output plugin have no
registered transformer. -/
def demoUnsupportedConfig : LogstashConfiguration :=
  ⟨"pipeline.conf",
   [⟨.INPUT, "kafka", [("topic", .str "logs")], 2⟩],
   [],
   [⟨.OUTPUT, "statsd", [], 8⟩],
   "input \x7b kafka \x7b topic => logs \x7d \x7d output \x7b statsd \x7b \x7d \x7d"⟩

end LvPy

namespace LvPy

/-- Strict linear chaining from a fixed previous identifier: each component
reads exactly from the component created immediately before it. -/
def chainedRest (prev : String) : List (String × VectorComponent) → Prop
  | [] => True
  | (i, c) :: rest => c.inputs = [prev] ∧ chainedRest i rest

/-- Strict linear chaining of a transform list over a source stage: the
first component reads from all source identifiers, every later one from
the single component created just before it. -/
def chainedFrom (srcIds : List String) : List (String × VectorComponent) → Prop
  | [] => True
  | (i, c) :: rest => c.inputs = srcIds ∧ chainedRest i rest

/-- The identifiers assigned by one `migrate_config` role loop, in order:
`f"{name}_{tag}_{idx}"` for every declaration whose transformer exists and
succeeds (unsupported and failing declarations still advance the index). -/
def stageKeys (tag : String) : Nat → List LogstashPlugin → List String
  | _, [] => []
  | idx, p :: rest =>
    match get_transformer p.plugin_type p.plugin_name with
    | none => stageKeys tag (idx + 1) rest
    | some tf =>
      match tf p with
      | some _ => (p.plugin_name ++ "_" ++ tag ++ "_" ++ natStr idx) :: stageKeys tag (idx + 1) rest
      | none => stageKeys tag (idx + 1) rest

/-- The identifier shape shared by all `migrate_config` keys, at the
character level: name, separator, role tag, separator, decimal index. -/
def migId (name tag : List Char) (idx : Nat) : List Char :=
  name ++ '_' :: (tag ++ '_' :: natDigits idx)

/-- Decimal valuation of a digit-character list (the inverse of
`natDigits`). -/
def digitsVal (cs : List Char) : Nat :=
  cs.foldl (fun a c => 10 * a + (c.toNat - 48)) 0

end LvPy

namespace LvPy

/-- C6: `successRate` equals supported/(supported+unsupported), is 0 when
both counts are zero, and always lies in [0,1]; it is a function of the
report's record lists (computed on demand), not a stored field. -/
theorem C6_success_rate_spec (r : MigrationReport) :
    (r.supported_plugins.length + r.unsupported_plugins.length = 0 →
      success_rate r = 0) ∧
    (0 < r.supported_plugins.length + r.unsupported_plugins.length →
      success_rate r = (r.supported_plugins.length : ℚ) /
        ((r.supported_plugins.length : ℚ) + (r.unsupported_plugins.length : ℚ))) ∧
    0 ≤ success_rate r ∧ success_rate r ≤ 1 := by
  unfold success_rate
  refine ⟨fun h0 => by simp [h0], fun hp => by rw [if_pos hp]; push_cast; ring_nf, ?_, ?_⟩
  · by_cases hp : 0 < r.supported_plugins.length + r.unsupported_plugins.length
    · rw [if_pos hp]
      exact div_nonneg (by positivity) (by positivity)
    · rw [if_neg hp]
  · by_cases hp : 0 < r.supported_plugins.length + r.unsupported_plugins.length
    · rw [if_pos hp]
      apply div_le_one_of_le₀
      · exact_mod_cast Nat.le_add_right _ _
      · positivity
    · rw [if_neg hp]; norm_num

/-- C6 witness: a report with one supported and one unsupported record has
success rate 1/2, obtained through the main theorem. -/
theorem C6_success_rate_spec_witness :
    success_rate
      ⟨"pipeline.conf", "pipeline.toml",
       [⟨"file", ["file_input_0"], none⟩],
       [⟨"kafka", .INPUT, 1, "{}", "guidance", []⟩], [], []⟩ = 1 / 2 := by
  have h := (C6_success_rate_spec
    ⟨"pipeline.conf", "pipeline.toml",
     [⟨"file", ["file_input_0"], none⟩],
     [⟨"kafka", .INPUT, 1, "{}", "guidance", []⟩], [], []⟩).2.1 (by simp)
  rw [h]
  norm_num

/-- C7: when the scan finds no input plugin or no output plugin, parsing
fails with a `ParseError` (`ValueError` in the source), the orchestrator
returns no document, and the report carries a parse-error entry. -/
theorem C7_missing_role_fails (path raw outPath : String)
    (h : extractRolePlugins raw.data "input" = [] ∨
         extractRolePlugins raw.data "output" = []) :
    (∃ msg, parse_file_regex path raw = .error msg) ∧
    (migrate_config path raw outPath).1 = none ∧
    ∃ e ∈ (migrate_config path raw outPath).2.errors,
      e.error_type = .PARSE_ERROR := by
  have herr : ∃ msg, parse_file_regex path raw = .error msg := by
    unfold parse_file_regex
    rcases h with h | h
    · rw [h]
      exact ⟨_, rfl⟩
    · rw [h]
      by_cases hin :
          ((extractRolePlugins raw.data "input").map
            (fun tri => LogstashPlugin.mk .INPUT tri.1 tri.2.1 tri.2.2)).isEmpty = true
      · simp only [hin, if_pos]
        exact ⟨_, rfl⟩
      · simp only [List.map_nil, List.isEmpty_nil, hin, if_neg, Bool.not_eq_true,
          if_true]
        exact ⟨_, rfl⟩
  obtain ⟨msg, hmsg⟩ := herr
  refine ⟨⟨msg, hmsg⟩, ?_, ?_⟩
  · unfold migrate_config
    rw [hmsg]
  · unfold migrate_config
    rw [hmsg]
    exact ⟨_, List.mem_singleton.mpr rfl, rfl⟩

/-- C7 witness: a source text with an input block but no output block. -/
theorem C7_missing_role_fails_witness :
    (∃ msg, parse_file_regex "n.conf" "input \x7b file \x7b \x7d \x7d" = .error msg) ∧
    (migrate_config "n.conf" "input \x7b file \x7b \x7d \x7d" "n.toml").1 = none ∧
    ∃ e ∈ (migrate_config "n.conf" "input \x7b file \x7b \x7d \x7d" "n.toml").2.errors,
      e.error_type = .PARSE_ERROR :=
  C7_missing_role_fails "n.conf" "input \x7b file \x7b \x7d \x7d" "n.toml"
    (Or.inr (by decide))

/-- C10: whenever `migrate_config` returns no document, the report's error
list is non-empty (a parse error, a no-source/no-sink error, or a
document-assembly validation error explains the missing document). -/
theorem C10_documentless_has_error (path raw outPath : String)
    (h : (migrate_config path raw outPath).1 = none) :
    (migrate_config path raw outPath).2.errors ≠ [] := by
  unfold migrate_config at h ⊢
  cases hp : parse_file_regex path raw with
  | error e => simp
  | ok cfg =>
    rw [hp] at h
    dsimp only at h ⊢
    unfold migrate_core at h ⊢
    by_cases h1 :
        (!(migrateInputsGo path 0 cfg.inputs .empty).comps.isEmpty &&
         !(migrateOutputsGo path (migrateInputsGo path 0 cfg.inputs .empty).ids
            (migrateFiltersGo path (migrateInputsGo path 0 cfg.inputs .empty).ids 0
              cfg.filters .empty).ids 0 cfg.outputs .empty).comps.isEmpty) = true
    · simp only [h1, if_pos] at h ⊢
      cases hv : mkVectorConfiguration outPath
          (migrateInputsGo path 0 cfg.inputs .empty).comps
          (migrateFiltersGo path (migrateInputsGo path 0 cfg.inputs .empty).ids 0
            cfg.filters .empty).comps
          (migrateOutputsGo path (migrateInputsGo path 0 cfg.inputs .empty).ids
            (migrateFiltersGo path (migrateInputsGo path 0 cfg.inputs .empty).ids 0
              cfg.filters .empty).ids 0 cfg.outputs .empty).comps with
      | some vc => rw [hv] at h; simp at h
      | none => simp
    · simp only [h1, if_neg, Bool.not_eq_true] at h ⊢
      by_cases h2 : (migrateInputsGo path 0 cfg.inputs .empty).comps.isEmpty = true
      · simp only [h2, if_pos] at h ⊢
        simp
      · simp only [h2, if_neg, Bool.not_eq_true] at h ⊢
        simp

/-- C10 witness: a source text with neither input nor output block. -/
theorem C10_documentless_has_error_witness :
    (migrate_config "f.conf" "filter \x7b grok \x7b \x7d \x7d" "f.toml").2.errors ≠ [] :=
  C10_documentless_has_error "f.conf" "filter \x7b grok \x7b \x7d \x7d" "f.toml" (by rfl)

/-- A document built by `mkVectorConfiguration` passed the finalization
check `validate_final` on every component. -/
theorem mkVectorConfiguration_valid (fp : String)
    (ss ts ks : List (String × VectorComponent)) (doc : VectorConfiguration)
    (h : mkVectorConfiguration fp ss ts ks = some doc) :
    ∀ pr ∈ doc.sources ++ doc.transforms ++ doc.sinks,
      validate_final pr.2 = true := by
  unfold mkVectorConfiguration at h
  by_cases h1 : (ss.isEmpty || ks.isEmpty) = true
  · rw [if_pos h1] at h; cases h
  · rw [if_neg h1] at h
    by_cases h2 : ((ss ++ ts ++ ks).all fun p => validate_final p.2) = true
    · rw [if_pos h2] at h
      cases h
      intro pr hpr
      exact List.all_eq_true.mp h2 pr hpr
    · rw [if_neg h2] at h; cases h

/-- C5: whenever the orchestrator returns a usable target document, every
component satisfies the finalization check re-run at assembly time:
transforms and sinks have non-empty inputs, sources have empty inputs. -/
theorem C5_inputs_cardinality (path raw outPath : String)
    (doc : VectorConfiguration)
    (h : (migrate_config path raw outPath).1 = some doc) :
    ∀ pr ∈ doc.sources ++ doc.transforms ++ doc.sinks,
      validate_final pr.2 = true ∧
      (pr.2.component_type = .SOURCE → pr.2.inputs = []) ∧
      (pr.2.component_type ≠ .SOURCE → pr.2.inputs ≠ []) := by
  have hv : ∀ pr ∈ doc.sources ++ doc.transforms ++ doc.sinks,
      validate_final pr.2 = true := by
    unfold migrate_config at h
    cases hp : parse_file_regex path raw with
    | error e => rw [hp] at h; cases h
    | ok cfg =>
      rw [hp] at h
      dsimp only at h
      unfold migrate_core at h
      by_cases h1 :
          (!(migrateInputsGo path 0 cfg.inputs .empty).comps.isEmpty &&
           !(migrateOutputsGo path (migrateInputsGo path 0 cfg.inputs .empty).ids
              (migrateFiltersGo path (migrateInputsGo path 0 cfg.inputs .empty).ids 0
                cfg.filters .empty).ids 0 cfg.outputs .empty).comps.isEmpty) = true
      · simp only [h1, if_pos] at h
        cases hm : mkVectorConfiguration outPath
            (migrateInputsGo path 0 cfg.inputs .empty).comps
            (migrateFiltersGo path (migrateInputsGo path 0 cfg.inputs .empty).ids 0
              cfg.filters .empty).comps
            (migrateOutputsGo path (migrateInputsGo path 0 cfg.inputs .empty).ids
              (migrateFiltersGo path (migrateInputsGo path 0 cfg.inputs .empty).ids 0
                cfg.filters .empty).ids 0 cfg.outputs .empty).comps with
        | some vc =>
          rw [hm] at h
          simp only [Option.some.injEq] at h
          subst h
          exact mkVectorConfiguration_valid _ _ _ _ _ hm
        | none => rw [hm] at h; cases h
      · simp only [h1, if_neg, Bool.not_eq_true] at h
        by_cases h2 : (migrateInputsGo path 0 cfg.inputs .empty).comps.isEmpty = true
        · simp only [h2, if_pos] at h; cases h
        · simp only [h2, if_neg, Bool.not_eq_true] at h; cases h
  intro pr hpr
  have hval := hv pr hpr
  refine ⟨hval, ?_, ?_⟩
  · intro hty
    unfold validate_final at hval
    rw [hty] at hval
    simpa using hval
  · intro hty
    unfold validate_final at hval
    cases hcty : pr.2.component_type with
    | SOURCE => exact absurd hcty hty
    | TRANSFORM => rw [hcty] at hval; simpa using hval
    | SINK => rw [hcty] at hval; simpa using hval

/-- C5 witness: the sink of a concrete translated document, reached through
the main theorem, passes the finalization check. -/
theorem C5_inputs_cardinality_witness :
    validate_final
      (⟨.SINK, "file",
        [("path", .str "/var/log/vector-output.log"),
         ("encoding", .dict [("codec", .str "json")])],
        ["file_input_0"], []⟩ : VectorComponent) = true := by
  have happ := C5_inputs_cardinality "s.conf" "input\x7bfile\x7b\x7d\x7doutput\x7bfile\x7b\x7d\x7d" "s.toml"
    ⟨"s.toml",
     [("file_input_0",
       ⟨.SOURCE, "file",
        [("include", .list ["/var/log/*.log"]), ("read_from", .str "end")],
        [], []⟩)],
     [],
     [("file_output_0",
       ⟨.SINK, "file",
        [("path", .str "/var/log/vector-output.log"),
         ("encoding", .dict [("codec", .str "json")])],
        ["file_input_0"], []⟩)]⟩
    rfl
  exact (happ ("file_output_0",
      ⟨.SINK, "file",
       [("path", .str "/var/log/vector-output.log"),
        ("encoding", .dict [("codec", .str "json")])],
       ["file_input_0"], []⟩)
    (List.mem_append_right _ (List.mem_singleton.mpr rfl))).1

end LvPy

namespace LvPy

/-- `dictInsert` never produces the empty dictionary. -/
theorem dictInsert_ne_nil {α : Type} (d : List (String × α)) (k : String) (v : α) :
    dictInsert d k v ≠ [] := by
  cases d with
  | nil => simp [dictInsert]
  | cons hd tl =>
    unfold dictInsert
    split <;> simp

/-- Folding `dictInsert` over a non-empty pair list yields a non-empty
dictionary. -/
theorem foldl_dictInsert_ne_nil (pairs : List (String × String)) :
    ∀ d : List (String × String), d ≠ [] →
      pairs.foldl (fun d kv => dictInsert d kv.1 kv.2) d ≠ [] := by
  induction pairs with
  | nil => intro d hd; simpa using hd
  | cons p rest ih =>
    intro d hd
    simp only [List.foldl_cons]
    exact ih _ (dictInsert_ne_nil d p.1 p.2)

/-- C8: the value decoder's case analysis on the normalized token: quoted
strings decode to strings, `[...]` to string lists, `{...}` to a shallow
hash exactly when the quoted-pair scan finds pairs (raw text otherwise),
`true`/`false` case-insensitively to booleans, all-digit tokens to
integers, and everything else stays a raw string. -/
theorem C8_value_decoder (s : String) :
    ((listStartsWith ['"'] (valueToken s) || listStartsWith ['\''] (valueToken s)) = true →
      ∃ r, parse_value s = .str r) ∧
    ((listStartsWith ['"'] (valueToken s) || listStartsWith ['\''] (valueToken s)) = false →
      listStartsWith ['['] (valueToken s) = true →
      ∃ xs, parse_value s = .list xs) ∧
    ((listStartsWith ['"'] (valueToken s) || listStartsWith ['\''] (valueToken s)) = false →
      listStartsWith ['['] (valueToken s) = false →
      listStartsWith ['{'] (valueToken s) = true →
      (hashPairs (stripBoth (fun c => c == '{' || c == '}') (valueToken s)) = [] ∧
         parse_value s = .str ⟨valueToken s⟩) ∨
      (hashPairs (stripBoth (fun c => c == '{' || c == '}') (valueToken s)) ≠ [] ∧
         ∃ m, m ≠ [] ∧ parse_value s = .hash m)) ∧
    ((listStartsWith ['"'] (valueToken s) || listStartsWith ['\''] (valueToken s)) = false →
      listStartsWith ['['] (valueToken s) = false →
      listStartsWith ['{'] (valueToken s) = false →
      (pyLower ⟨valueToken s⟩ == "true" || pyLower ⟨valueToken s⟩ == "false") = true →
      parse_value s = .bool (pyLower ⟨valueToken s⟩ == "true")) ∧
    ((listStartsWith ['"'] (valueToken s) || listStartsWith ['\''] (valueToken s)) = false →
      listStartsWith ['['] (valueToken s) = false →
      listStartsWith ['{'] (valueToken s) = false →
      (pyLower ⟨valueToken s⟩ == "true" || pyLower ⟨valueToken s⟩ == "false") = false →
      isAllDigits ⟨valueToken s⟩ = true →
      ∃ n, parse_value s = .int n) ∧
    ((listStartsWith ['"'] (valueToken s) || listStartsWith ['\''] (valueToken s)) = false →
      listStartsWith ['['] (valueToken s) = false →
      listStartsWith ['{'] (valueToken s) = false →
      (pyLower ⟨valueToken s⟩ == "true" || pyLower ⟨valueToken s⟩ == "false") = false →
      isAllDigits ⟨valueToken s⟩ = false →
      parse_value s = .str ⟨valueToken s⟩) := by
  unfold parse_value
  refine ⟨fun h1 => ?_, fun h1 h2 => ?_, fun h1 h2 h3 => ?_,
    fun h1 h2 h3 h4 => ?_, fun h1 h2 h3 h4 h5 => ?_, fun h1 h2 h3 h4 h5 => ?_⟩
  · simp only [h1, if_true]
    exact ⟨_, rfl⟩
  · simp only [h1, h2, Bool.false_eq_true, if_false, if_true]
    exact ⟨_, rfl⟩
  · simp only [h1, h2, h3, Bool.false_eq_true, if_false, if_true]
    cases hp : hashPairs (stripBoth (fun c => c == '{' || c == '}') (valueToken s)) with
    | nil => exact Or.inl ⟨rfl, by simp⟩
    | cons a rest =>
      refine Or.inr ⟨by simp, ?_⟩
      refine ⟨List.foldl (fun d kv => dictInsert d kv.1 kv.2) [] (a :: rest),
        ?_, by simp⟩
      simp only [List.foldl_cons]
      exact foldl_dictInsert_ne_nil rest _ (dictInsert_ne_nil [] a.1 a.2)
  · simp only [h1, h2, h3, h4, Bool.false_eq_true, if_false, if_true]
  · simp only [h1, h2, h3, h4, h5, Bool.false_eq_true, if_false, if_true]
    exact ⟨_, rfl⟩
  · simp only [h1, h2, h3, h4, h5, Bool.false_eq_true, if_false, if_true]

/-- C8 witness: the six cases of the main theorem instantiated on concrete
literals (a quoted string, an array, a hash with and without pairs, a
boolean, an integer, and a bare word). -/
theorem C8_value_decoder_witness :
    parse_value "\x7b \"message\" => \"%\x7bCOMBINEDAPACHELOG\x7d\" \x7d" =
      .hash [("message", "%\x7bCOMBINEDAPACHELOG\x7d")] ∧
    parse_value "\x7b nothing here \x7d" = .str "\x7b nothing here \x7d" ∧
    parse_value "TRUE" = .bool true ∧
    parse_value "beginning" = .str "beginning" := by
  have h1 := ((C8_value_decoder "\x7b \"message\" => \"%\x7bCOMBINEDAPACHELOG\x7d\" \x7d").2.2.1
    (by decide) (by decide) (by decide))
  have h2 := ((C8_value_decoder "\x7b nothing here \x7d").2.2.1
    (by decide) (by decide) (by decide))
  have h3 := ((C8_value_decoder "TRUE").2.2.2.1
    (by decide) (by decide) (by decide) (by decide))
  have h4 := ((C8_value_decoder "beginning").2.2.2.2.2
    (by decide) (by decide) (by decide) (by decide) (by decide))
  refine ⟨by decide, ?_, by rw [h3]; decide, h4⟩
  rcases h2 with ⟨-, h⟩ | ⟨hne, -⟩
  · exact h
  · exact absurd (by decide) hne

end LvPy

namespace LvPy

/-- C3 (code bug): on a two-block document, the parser reports the input
plugin `file` on line 1 and the output plugin `file` on line 5, although
every occurrence of the token `file` in the raw text lies on line 2 or
line 6 (one plus the newlines preceding the occurrence). The source adds
`name_start`, an offset relative to the block body, to `block_start`, the
offset of the block keyword, so the characters between the keyword and the
body are skipped when counting newlines. -/
theorem C3_line_number_bug :
    ((parse_file_regex "pipeline.conf"
        "input \x7b\n  file \x7b\n  \x7d\n\x7d\noutput \x7b\n  file \x7b\n  \x7d\n\x7d").toOption.map
      (fun cfg => (cfg.inputs.map (fun p => (p.plugin_name, p.line_number)),
                   cfg.outputs.map (fun p => (p.plugin_name, p.line_number)))))
      = some ([("file", 1)], [("file", 5)]) ∧
    ((List.range
        ("input \x7b\n  file \x7b\n  \x7d\n\x7d\noutput \x7b\n  file \x7b\n  \x7d\n\x7d" : String).data.length).all
      (fun off =>
        !listStartsWith "file".data
          (("input \x7b\n  file \x7b\n  \x7d\n\x7d\noutput \x7b\n  file \x7b\n  \x7d\n\x7d" : String).data.drop off) ||
        ((("input \x7b\n  file \x7b\n  \x7d\n\x7d\noutput \x7b\n  file \x7b\n  \x7d\n\x7d" : String).data.take off).count '\n' + 1 == 2 ||
         (("input \x7b\n  file \x7b\n  \x7d\n\x7d\noutput \x7b\n  file \x7b\n  \x7d\n\x7d" : String).data.take off).count '\n' + 1 == 6))) = true := by
  constructor
  · decide
  · decide

/-- C9 (Scenario A): one `file` input with `path => "/var/log/app.log"` and
one `file` output with `path => "/var/log/out.log"` translate to exactly
one Source of component kind `file` with `include = ["/var/log/app.log"]`
and exactly one Sink whose inputs are exactly that Source's identifier. -/
theorem C9_scenario_a :
    (migrate_config "pipeline.conf"
        "input \x7b\n  file \x7b\n    path => \"/var/log/app.log\"\n  \x7d\n\x7d\noutput \x7b\n  file \x7b\n    path => \"/var/log/out.log\"\n  \x7d\n\x7d"
        "pipeline.toml").1.map (fun d => d.sources.map Prod.fst)
      = some ["file_input_0"] ∧
    (migrate_config "pipeline.conf"
        "input \x7b\n  file \x7b\n    path => \"/var/log/app.log\"\n  \x7d\n\x7d\noutput \x7b\n  file \x7b\n    path => \"/var/log/out.log\"\n  \x7d\n\x7d"
        "pipeline.toml").1.map (fun d => d.sources.map (fun pr => pr.2.component_kind))
      = some ["file"] ∧
    (migrate_config "pipeline.conf"
        "input \x7b\n  file \x7b\n    path => \"/var/log/app.log\"\n  \x7d\n\x7d\noutput \x7b\n  file \x7b\n    path => \"/var/log/out.log\"\n  \x7d\n\x7d"
        "pipeline.toml").1.map (fun d => d.sources.map (fun pr => dictGet pr.2.config "include"))
      = some [some (.list ["/var/log/app.log"])] ∧
    (migrate_config "pipeline.conf"
        "input \x7b\n  file \x7b\n    path => \"/var/log/app.log\"\n  \x7d\n\x7d\noutput \x7b\n  file \x7b\n    path => \"/var/log/out.log\"\n  \x7d\n\x7d"
        "pipeline.toml").1.map (fun d => d.transforms.length) = some 0 ∧
    (migrate_config "pipeline.conf"
        "input \x7b\n  file \x7b\n    path => \"/var/log/app.log\"\n  \x7d\n\x7d\noutput \x7b\n  file \x7b\n    path => \"/var/log/out.log\"\n  \x7d\n\x7d"
        "pipeline.toml").1.map (fun d => d.sinks.map (fun pr => (pr.1, pr.2.inputs)))
      = some [("file_output_0", ["file_input_0"])] :=
  ⟨rfl, rfl, rfl, rfl, rfl⟩

end LvPy

namespace LvPy

theorem fileInputTransform_inputs (p : LogstashPlugin) :
    (fileInputTransform p).inputs = [] := rfl

theorem beatsInputTransform_inputs (p : LogstashPlugin) :
    (beatsInputTransform p).inputs = [] := rfl

theorem grokFilterTransform_inputs (p : LogstashPlugin) :
    (grokFilterTransform p).inputs = [] := rfl

theorem dateFilterTransform_inputs (p : LogstashPlugin) :
    (dateFilterTransform p).inputs = [] := rfl

theorem mutateFilterTransform_inputs (p : LogstashPlugin) (c : VectorComponent)
    (h : mutateFilterTransform p = some c) : c.inputs = [] := by
  unfold mutateFilterTransform at h
  repeat' split at h
  all_goals (cases h <;> rfl)

theorem esOutputTransform_inputs (p : LogstashPlugin) (c : VectorComponent)
    (h : esOutputTransform p = some c) : c.inputs = [] := by
  unfold esOutputTransform at h
  repeat' split at h
  all_goals (cases h <;> rfl)

theorem fileOutputTransform_inputs (p : LogstashPlugin) (c : VectorComponent)
    (h : fileOutputTransform p = some c) : c.inputs = [] := by
  unfold fileOutputTransform at h
  repeat' split at h
  all_goals (cases h <;> rfl)

/-- Every transformer reachable through the registry produces a component
with empty `inputs`; wiring is the orchestrator's job. -/
theorem registry_comp_inputs_nil (ty : PluginType) (name : String)
    (tf : LogstashPlugin → Option VectorComponent) (p : LogstashPlugin)
    (c : VectorComponent) (h1 : get_transformer ty name = some tf)
    (h2 : tf p = some c) : c.inputs = [] := by
  cases ty
  · simp only [get_transformer] at h1
    split_ifs at h1 <;> cases h1
    · exact Option.some.inj h2 ▸ fileInputTransform_inputs p
    · exact Option.some.inj h2 ▸ beatsInputTransform_inputs p
  · simp only [get_transformer] at h1
    split_ifs at h1 <;> cases h1
    · exact Option.some.inj h2 ▸ grokFilterTransform_inputs p
    · exact mutateFilterTransform_inputs p c h2
    · exact Option.some.inj h2 ▸ dateFilterTransform_inputs p
  · simp only [get_transformer] at h1
    split_ifs at h1 <;> cases h1
    · exact esOutputTransform_inputs p c h2
    · exact fileOutputTransform_inputs p c h2

end LvPy

namespace LvPy

/-- Appending a component wired to the last identifier (or to `prev` when
the list is empty) preserves strict chaining after `prev`. -/
theorem chainedRest_append :
    ∀ (l : List (String × VectorComponent)) (prev i : String)
      (c : VectorComponent),
      chainedRest prev l →
      c.inputs = (match (l.map Prod.fst).getLast? with
                  | some t => [t]
                  | none => [prev]) →
      chainedRest prev (l ++ [(i, c)]) := by
  intro l
  induction l with
  | nil =>
    intro prev i c _ hc
    exact ⟨by simpa using hc, trivial⟩
  | cons hd tl ih =>
    intro prev i c h hc
    obtain ⟨h1, h2⟩ := h
    refine ⟨h1, ih hd.1 i c h2 ?_⟩
    cases tl with
    | nil => simpa using hc
    | cons x xs =>
      simpa [List.getLast?_cons_cons] using hc

/-- Appending a component wired to the last identifier (or to the source
identifiers when no transform exists yet) preserves the linear wiring
shape. -/
theorem chainedFrom_append :
    ∀ (l : List (String × VectorComponent)) (src : List String) (i : String)
      (c : VectorComponent),
      chainedFrom src l →
      c.inputs = (match (l.map Prod.fst).getLast? with
                  | some t => [t]
                  | none => src) →
      chainedFrom src (l ++ [(i, c)]) := by
  intro l src i c h hc
  cases l with
  | nil => exact ⟨by simpa using hc, trivial⟩
  | cons hd tl =>
    obtain ⟨h1, h2⟩ := h
    refine ⟨h1, chainedRest_append tl hd.1 i c h2 ?_⟩
    cases tl with
    | nil => simpa using hc
    | cons x xs =>
      simpa [List.getLast?_cons_cons] using hc

/-- The inputs loop of `migrate_config` keeps its identifier list in
lockstep with its component keys. -/
theorem migrateInputsGo_lockstep (path : String) :
    ∀ (ps : List LogstashPlugin) (idx : Nat) (acc : StageAcc),
      acc.ids = acc.comps.map Prod.fst →
      (migrateInputsGo path idx ps acc).ids =
        (migrateInputsGo path idx ps acc).comps.map Prod.fst := by
  intro ps
  induction ps with
  | nil => intro idx acc h; exact h
  | cons p rest ih =>
    intro idx acc h
    unfold migrateInputsGo
    cases hg : get_transformer p.plugin_type p.plugin_name with
    | none => dsimp only; exact ih _ _ h
    | some tf =>
      dsimp only
      cases htf : tf p with
      | some comp => dsimp only; exact ih _ _ (by simp [h])
      | none => dsimp only; exact ih _ _ h

/-- Every component created by the inputs loop has empty `inputs`. -/
theorem migrateInputsGo_inputs_nil (path : String) :
    ∀ (ps : List LogstashPlugin) (idx : Nat) (acc : StageAcc),
      (∀ pr ∈ acc.comps, pr.2.inputs = []) →
      ∀ pr ∈ (migrateInputsGo path idx ps acc).comps, pr.2.inputs = [] := by
  intro ps
  induction ps with
  | nil => intro idx acc h; exact h
  | cons p rest ih =>
    intro idx acc h
    unfold migrateInputsGo
    cases hg : get_transformer p.plugin_type p.plugin_name with
    | none => dsimp only; exact ih _ _ h
    | some tf =>
      dsimp only
      cases htf : tf p with
      | some comp =>
        dsimp only
        refine ih _ _ ?_
        intro pr hpr
        rcases List.mem_append.mp hpr with hm | hm
        · exact h pr hm
        · rcases List.mem_singleton.mp hm with rfl
          exact registry_comp_inputs_nil _ _ _ _ _ hg htf
      | none => dsimp only; exact ih _ _ h

/-- The filters loop of `migrate_config` wires strictly linearly: its
component list is chained over the source identifiers, and the identifier
list stays in lockstep. -/
theorem migrateFiltersGo_wiring (path : String) (srcIds : List String) :
    ∀ (ps : List LogstashPlugin) (idx : Nat) (acc : StageAcc),
      acc.ids = acc.comps.map Prod.fst →
      chainedFrom srcIds acc.comps →
      (migrateFiltersGo path srcIds idx ps acc).ids =
        (migrateFiltersGo path srcIds idx ps acc).comps.map Prod.fst ∧
      chainedFrom srcIds (migrateFiltersGo path srcIds idx ps acc).comps := by
  intro ps
  induction ps with
  | nil => intro idx acc h1 h2; exact ⟨h1, h2⟩
  | cons p rest ih =>
    intro idx acc h1 h2
    unfold migrateFiltersGo
    cases hg : get_transformer p.plugin_type p.plugin_name with
    | none => dsimp only; exact ih _ _ h1 h2
    | some tf =>
      dsimp only
      cases htf : tf p with
      | some comp =>
        dsimp only
        refine ih _ _ (by simp [h1]) ?_
        refine chainedFrom_append _ _ _ _ h2 ?_
        rw [← h1]
      | none => dsimp only; exact ih _ _ h1 h2

/-- Every component created by the outputs loop is wired to the last
transform identifier, or to all source identifiers when no transform was
created. -/
theorem migrateOutputsGo_wired (path : String) (srcIds tIds : List String) :
    ∀ (ps : List LogstashPlugin) (idx : Nat) (acc : StageAcc),
      (∀ pr ∈ acc.comps, pr.2.inputs =
        (match tIds.getLast? with | some t => [t] | none => srcIds)) →
      ∀ pr ∈ (migrateOutputsGo path srcIds tIds idx ps acc).comps,
        pr.2.inputs =
          (match tIds.getLast? with | some t => [t] | none => srcIds) := by
  intro ps
  induction ps with
  | nil => intro idx acc h; exact h
  | cons p rest ih =>
    intro idx acc h
    unfold migrateOutputsGo
    cases hg : get_transformer p.plugin_type p.plugin_name with
    | none => dsimp only; exact ih _ _ h
    | some tf =>
      dsimp only
      cases htf : tf p with
      | some comp =>
        dsimp only
        refine ih _ _ ?_
        intro pr hpr
        rcases List.mem_append.mp hpr with hm | hm
        · exact h pr hm
        · rcases List.mem_singleton.mp hm with rfl
          rfl
      | none => dsimp only; exact ih _ _ h

end LvPy

namespace LvPy

/-- The document built by `mkVectorConfiguration` carries exactly the maps
it was given. -/
theorem mkVectorConfiguration_fields (fp : String)
    (ss ts ks : List (String × VectorComponent)) (doc : VectorConfiguration)
    (h : mkVectorConfiguration fp ss ts ks = some doc) :
    doc.sources = ss ∧ doc.transforms = ts ∧ doc.sinks = ks := by
  unfold mkVectorConfiguration at h
  by_cases h1 : (ss.isEmpty || ks.isEmpty) = true
  · rw [if_pos h1] at h; cases h
  · rw [if_neg h1] at h
    by_cases h2 : ((ss ++ ts ++ ks).all fun p => validate_final p.2) = true
    · rw [if_pos h2] at h
      cases h
      exact ⟨rfl, rfl, rfl⟩
    · rw [if_neg h2] at h; cases h

/-- C2: `migrate_config` wires strictly linearly. Source components carry
no inputs; the filter stage is chained (first filter reads from every
source identifier, each later filter from the one created just before it);
every sink reads from the last filter identifier, or from all source
identifiers when no filter was created; identifier lists track component
keys; and a returned document consists exactly of these stages. -/
theorem C2_strictly_linear_wiring (path outPath : String)
    (cfg : LogstashConfiguration) :
    (∀ pr ∈ (migrateInputsGo path 0 cfg.inputs .empty).comps,
      pr.2.inputs = []) ∧
    (migrateInputsGo path 0 cfg.inputs .empty).ids =
      (migrateInputsGo path 0 cfg.inputs .empty).comps.map Prod.fst ∧
    chainedFrom (migrateInputsGo path 0 cfg.inputs .empty).ids
      (migrateFiltersGo path (migrateInputsGo path 0 cfg.inputs .empty).ids 0
        cfg.filters .empty).comps ∧
    (migrateFiltersGo path (migrateInputsGo path 0 cfg.inputs .empty).ids 0
      cfg.filters .empty).ids =
      (migrateFiltersGo path (migrateInputsGo path 0 cfg.inputs .empty).ids 0
        cfg.filters .empty).comps.map Prod.fst ∧
    (∀ pr ∈ (migrateOutputsGo path (migrateInputsGo path 0 cfg.inputs .empty).ids
        (migrateFiltersGo path (migrateInputsGo path 0 cfg.inputs .empty).ids 0
          cfg.filters .empty).ids 0 cfg.outputs .empty).comps,
      pr.2.inputs =
        (match (migrateFiltersGo path (migrateInputsGo path 0 cfg.inputs .empty).ids 0
            cfg.filters .empty).ids.getLast? with
         | some t => [t]
         | none => (migrateInputsGo path 0 cfg.inputs .empty).ids)) ∧
    (∀ doc : VectorConfiguration, (migrate_core path outPath cfg).1 = some doc →
      doc.sources = (migrateInputsGo path 0 cfg.inputs .empty).comps ∧
      doc.transforms =
        (migrateFiltersGo path (migrateInputsGo path 0 cfg.inputs .empty).ids 0
          cfg.filters .empty).comps ∧
      doc.sinks =
        (migrateOutputsGo path (migrateInputsGo path 0 cfg.inputs .empty).ids
          (migrateFiltersGo path (migrateInputsGo path 0 cfg.inputs .empty).ids 0
            cfg.filters .empty).ids 0 cfg.outputs .empty).comps) := by
  have hIn := migrateInputsGo_inputs_nil path cfg.inputs 0 .empty
    (by intro pr h; cases h)
  have hLock := migrateInputsGo_lockstep path cfg.inputs 0 .empty rfl
  have hFil := migrateFiltersGo_wiring path
    (migrateInputsGo path 0 cfg.inputs .empty).ids cfg.filters 0 .empty rfl trivial
  have hOut := migrateOutputsGo_wired path
    (migrateInputsGo path 0 cfg.inputs .empty).ids
    (migrateFiltersGo path (migrateInputsGo path 0 cfg.inputs .empty).ids 0
      cfg.filters .empty).ids cfg.outputs 0 .empty (by intro pr h; cases h)
  refine ⟨hIn, hLock, hFil.2, hFil.1, hOut, ?_⟩
  intro doc h
  unfold migrate_core at h
  by_cases h1 :
      (!(migrateInputsGo path 0 cfg.inputs .empty).comps.isEmpty &&
       !(migrateOutputsGo path (migrateInputsGo path 0 cfg.inputs .empty).ids
          (migrateFiltersGo path (migrateInputsGo path 0 cfg.inputs .empty).ids 0
            cfg.filters .empty).ids 0 cfg.outputs .empty).comps.isEmpty) = true
  · simp only [h1, if_pos] at h
    cases hm : mkVectorConfiguration outPath
        (migrateInputsGo path 0 cfg.inputs .empty).comps
        (migrateFiltersGo path (migrateInputsGo path 0 cfg.inputs .empty).ids 0
          cfg.filters .empty).comps
        (migrateOutputsGo path (migrateInputsGo path 0 cfg.inputs .empty).ids
          (migrateFiltersGo path (migrateInputsGo path 0 cfg.inputs .empty).ids 0
            cfg.filters .empty).ids 0 cfg.outputs .empty).comps with
    | some vc =>
      rw [hm] at h
      simp only [Option.some.injEq] at h
      subst h
      exact mkVectorConfiguration_fields _ _ _ _ _ hm
    | none => rw [hm] at h; cases h
  · simp only [h1, if_neg, Bool.not_eq_true] at h
    by_cases h2 : (migrateInputsGo path 0 cfg.inputs .empty).comps.isEmpty = true
    · simp only [h2, if_pos] at h; cases h
    · simp only [h2, if_neg, Bool.not_eq_true] at h; cases h

/-- C2 witness: on a document with one `file` input and one `file` output,
the main theorem yields that the returned document's stages are exactly
the loop results (in particular the sink list with its wired inputs). -/
theorem C2_strictly_linear_wiring_witness :
    (VectorConfiguration.mk "p.toml"
      [("file_input_0",
        ⟨.SOURCE, "file",
         [("include", .list ["/var/log/*.log"]), ("read_from", .str "end")],
         [], []⟩)]
      []
      [("file_output_0",
        ⟨.SINK, "file",
         [("path", .str "/var/log/vector-output.log"),
          ("encoding", .dict [("codec", .str "json")])],
         ["file_input_0"], []⟩)]).sinks =
      (migrateOutputsGo "p.conf"
        (migrateInputsGo "p.conf" 0
          [⟨.INPUT, "file", [], 1⟩] .empty).ids
        (migrateFiltersGo "p.conf"
          (migrateInputsGo "p.conf" 0 [⟨.INPUT, "file", [], 1⟩] .empty).ids 0
          [] .empty).ids 0 [⟨.OUTPUT, "file", [], 2⟩] .empty).comps :=
  ((C2_strictly_linear_wiring "p.conf" "p.toml"
      ⟨"p.conf", [⟨.INPUT, "file", [], 1⟩], [],
       [⟨.OUTPUT, "file", [], 2⟩], "raw"⟩).2.2.2.2.2
    (VectorConfiguration.mk "p.toml"
      [("file_input_0",
        ⟨.SOURCE, "file",
         [("include", .list ["/var/log/*.log"]), ("read_from", .str "end")],
         [], []⟩)]
      []
      [("file_output_0",
        ⟨.SINK, "file",
         [("path", .str "/var/log/vector-output.log"),
          ("encoding", .dict [("codec", .str "json")])],
         ["file_input_0"], []⟩)]) rfl).2.2

end LvPy

namespace LvPy

/-- The digit characters `'0'..'9'` all satisfy `Char.isDigit`. -/
theorem digitChar_isDigit (m : Nat) (h : m < 10) :
    (digitChar m).isDigit = true := by
  interval_cases m <;> decide

/-- The code point of a digit character recovers the digit. -/
theorem digitChar_toNat (m : Nat) (h : m < 10) :
    (digitChar m).toNat = 48 + m := by
  interval_cases m <;> decide

/-- The accumulator of `natDigitsAux` is appended on the right. -/
theorem natDigitsAux_append :
    ∀ (fuel n : Nat) (acc : List Char),
      natDigitsAux fuel n acc = natDigitsAux fuel n [] ++ acc := by
  intro fuel
  induction fuel with
  | zero => intro n acc; rfl
  | succ f ih =>
    intro n acc
    unfold natDigitsAux
    by_cases h : n < 10
    · simp [h]
    · rw [if_neg h, if_neg h, ih (n / 10) (digitChar (n % 10) :: acc),
        ih (n / 10) [digitChar (n % 10)]]
      simp

/-- `natDigitsAux` ignores the fuel as long as it exceeds `n`. -/
theorem natDigitsAux_fuel :
    ∀ (n f1 f2 : Nat) (acc : List Char), n < f1 → n < f2 →
      natDigitsAux f1 n acc = natDigitsAux f2 n acc := by
  intro n
  induction n using Nat.strong_induction_on with
  | _ n ih =>
    intro f1 f2 acc h1 h2
    cases f1 with
    | zero => omega
    | succ g1 =>
      cases f2 with
      | zero => omega
      | succ g2 =>
        unfold natDigitsAux
        by_cases h : n < 10
        · simp [h]
        · rw [if_neg h, if_neg h]
          have hd : n / 10 < n := Nat.div_lt_self (by omega) (by omega)
          rw [ih (n / 10) hd g1 (n / 10 + 1) _ (by omega) (by omega),
            ih (n / 10) hd g2 (n / 10 + 1) _ (by omega) (by omega)]

/-- Small-number base case of `natDigits`. -/
theorem natDigits_lt (n : Nat) (h : n < 10) : natDigits n = [digitChar n] := by
  unfold natDigits natDigitsAux
  simp [h]

/-- Recursive unfolding of `natDigits` for `n ≥ 10`. -/
theorem natDigits_ge (n : Nat) (h : 10 ≤ n) :
    natDigits n = natDigits (n / 10) ++ [digitChar (n % 10)] := by
  have hd : n / 10 < n := Nat.div_lt_self (by omega) (by omega)
  have step : natDigitsAux (n + 1) n [] = natDigitsAux n (n / 10) [digitChar (n % 10)] := by
    simp only [natDigitsAux]
    rw [if_neg (by omega)]
  show natDigitsAux (n + 1) n [] =
    natDigitsAux (n / 10 + 1) (n / 10) [] ++ [digitChar (n % 10)]
  rw [step, natDigitsAux_fuel (n / 10) n (n / 10 + 1) _ (by omega) (by omega)]
  exact natDigitsAux_append (n / 10 + 1) (n / 10) _

/-- Digit lists are never empty. -/
theorem natDigits_ne_nil (n : Nat) : natDigits n ≠ [] := by
  by_cases h : n < 10
  · rw [natDigits_lt n h]; simp
  · rw [natDigits_ge n (by omega)]; simp

/-- Every character of `natDigits n` is a digit. -/
theorem natDigits_all_digit :
    ∀ n, ∀ c ∈ natDigits n, c.isDigit = true := by
  intro n
  induction n using Nat.strong_induction_on with
  | _ n ih =>
    intro c hc
    by_cases h : n < 10
    · rw [natDigits_lt n h] at hc
      rcases List.mem_singleton.mp hc with rfl
      exact digitChar_isDigit n h
    · rw [natDigits_ge n (by omega)] at hc
      rcases List.mem_append.mp hc with hm | hm
      · exact ih (n / 10) (Nat.div_lt_self (by omega) (by omega)) c hm
      · rcases List.mem_singleton.mp hm with rfl
        exact digitChar_isDigit (n % 10) (Nat.mod_lt n (by omega))

/-- Decimal valuation inverts `natDigits`. -/
theorem digitsVal_natDigits : ∀ n, digitsVal (natDigits n) = n := by
  intro n
  induction n using Nat.strong_induction_on with
  | _ n ih =>
    by_cases h : n < 10
    · rw [natDigits_lt n h]
      simp [digitsVal, digitChar_toNat n h]
    · rw [natDigits_ge n (by omega)]
      unfold digitsVal
      rw [List.foldl_append]
      have hval := ih (n / 10) (Nat.div_lt_self (by omega) (by omega))
      unfold digitsVal at hval
      simp only [List.foldl_cons, List.foldl_nil, hval]
      rw [digitChar_toNat (n % 10) (Nat.mod_lt n (by omega))]
      omega

/-- `natDigits` is injective. -/
theorem natDigits_inj (m n : Nat) (h : natDigits m = natDigits n) : m = n := by
  have := congrArg digitsVal h
  rwa [digitsVal_natDigits, digitsVal_natDigits] at this

end LvPy

namespace LvPy

/-- Splitting at a separator character is unambiguous when the suffix
alphabet excludes the separator: two decompositions
`a ++ sep :: b` with `b` drawn from the alphabet agree componentwise. -/
theorem append_sep_inj (p : Char → Bool) (sep : Char) (hsep : p sep = false) :
    ∀ (a1 a2 b1 b2 : List Char),
      (∀ c ∈ b1, p c = true) → (∀ c ∈ b2, p c = true) →
      a1 ++ sep :: b1 = a2 ++ sep :: b2 → a1 = a2 ∧ b1 = b2 := by
  intro a1
  induction a1 with
  | nil =>
    intro a2 b1 b2 hb1 hb2 h
    cases a2 with
    | nil =>
      simp only [List.nil_append] at h
      exact ⟨rfl, (List.cons.injEq _ _ _ _ ▸ h).2⟩
    | cons x a2' =>
      simp only [List.nil_append, List.cons_append] at h
      obtain ⟨hx, hrest⟩ := List.cons.injEq _ _ _ _ ▸ h
      exfalso
      have : sep ∈ b1 := by
        rw [hrest]
        exact List.mem_append_right _ (List.mem_cons_self _ _)
      rw [hb1 sep this] at hsep
      cases hsep
  | cons x a1' ih =>
    intro a2 b1 b2 hb1 hb2 h
    cases a2 with
    | nil =>
      simp only [List.nil_append, List.cons_append] at h
      obtain ⟨hx, hrest⟩ := List.cons.injEq _ _ _ _ ▸ h
      exfalso
      have : sep ∈ b2 := by
        rw [← hrest]
        exact List.mem_append_right _ (List.mem_cons_self _ _)
      rw [hb2 sep this] at hsep
      cases hsep
    | cons y a2' =>
      simp only [List.cons_append] at h
      obtain ⟨hx, hrest⟩ := List.cons.injEq _ _ _ _ ▸ h
      obtain ⟨ha, hb⟩ := ih a2' b1 b2 hb1 hb2 hrest
      exact ⟨by rw [hx, ha], hb⟩

/-- The `migrate_config` identifier shape determines its three parts: two
equal identifiers built from underscore-free role tags share name, tag and
index. -/
theorem migId_inj (n1 n2 t1 t2 : List Char) (i1 i2 : Nat)
    (ht1 : ∀ c ∈ t1, (c != '_') = true) (ht2 : ∀ c ∈ t2, (c != '_') = true)
    (h : migId n1 t1 i1 = migId n2 t2 i2) :
    n1 = n2 ∧ t1 = t2 ∧ i1 = i2 := by
  unfold migId at h
  have hre : ∀ (n t : List Char) (i : Nat),
      n ++ '_' :: (t ++ '_' :: natDigits i) =
        (n ++ '_' :: t) ++ '_' :: natDigits i := by
    intro n t i
    simp
  rw [hre n1 t1 i1, hre n2 t2 i2] at h
  obtain ⟨h1, h2⟩ := append_sep_inj Char.isDigit '_' (by decide)
    (n1 ++ '_' :: t1) (n2 ++ '_' :: t2) (natDigits i1) (natDigits i2)
    (natDigits_all_digit i1) (natDigits_all_digit i2) h
  obtain ⟨hn, ht⟩ := append_sep_inj (fun c => c != '_') '_' (by decide)
    n1 n2 t1 t2 ht1 ht2 h1
  exact ⟨hn, ht, natDigits_inj i1 i2 h2⟩

/-- The character data of one `migrate_config` identifier. -/
theorem key_data_eq (name tag : String) (i : Nat) :
    (name ++ "_" ++ tag ++ "_" ++ natStr i).data = migId name.data tag.data i := by
  simp only [String.data_append, migId, natStr]
  simp [String.data]

/-- Two `migrate_config` identifiers with underscore-free tags coincide
only when name, tag and index all coincide. -/
theorem migKey_inj (name1 name2 tag1 tag2 : String) (i1 i2 : Nat)
    (ht1 : ∀ c ∈ tag1.data, (c != '_') = true)
    (ht2 : ∀ c ∈ tag2.data, (c != '_') = true)
    (h : name1 ++ "_" ++ tag1 ++ "_" ++ natStr i1 =
         name2 ++ "_" ++ tag2 ++ "_" ++ natStr i2) :
    name1.data = name2.data ∧ tag1.data = tag2.data ∧ i1 = i2 := by
  have hdata := congrArg String.data h
  rw [key_data_eq, key_data_eq] at hdata
  exact migId_inj _ _ _ _ _ _ ht1 ht2 hdata

end LvPy

namespace LvPy

/-- Rewrite a fused `_tag_` literal into its three-part form. -/
theorem key_tag_eq (a lit tag : String) (i : Nat)
    (hlit : lit.data = "_".data ++ tag.data ++ "_".data) :
    a ++ lit ++ natStr i = a ++ "_" ++ tag ++ "_" ++ natStr i := by
  apply String.ext
  simp only [String.data_append, hlit]
  simp [List.append_assoc]

/-- Every identifier in a role's key list carries an index at least the
starting index. -/
theorem stageKeys_mem (tag : String) :
    ∀ (ps : List LogstashPlugin) (idx : Nat) (k : String),
      k ∈ stageKeys tag idx ps →
      ∃ name j, idx ≤ j ∧ k = name ++ "_" ++ tag ++ "_" ++ natStr j := by
  intro ps
  induction ps with
  | nil => intro idx k hk; cases hk
  | cons p rest ih =>
    intro idx k hk
    unfold stageKeys at hk
    cases hg : get_transformer p.plugin_type p.plugin_name with
    | none =>
      rw [hg] at hk
      dsimp only at hk
      obtain ⟨name, j, hj, hkey⟩ := ih (idx + 1) k hk
      exact ⟨name, j, by omega, hkey⟩
    | some tf =>
      rw [hg] at hk
      dsimp only at hk
      cases htf : tf p with
      | some comp =>
        rw [htf] at hk
        dsimp only at hk
        rcases List.mem_cons.mp hk with rfl | hk'
        · exact ⟨p.plugin_name, idx, le_refl idx, rfl⟩
        · obtain ⟨name, j, hj, hkey⟩ := ih (idx + 1) k hk'
          exact ⟨name, j, by omega, hkey⟩
      | none =>
        rw [htf] at hk
        dsimp only at hk
        obtain ⟨name, j, hj, hkey⟩ := ih (idx + 1) k hk
        exact ⟨name, j, by omega, hkey⟩

/-- Within one role, the assigned identifiers are pairwise distinct: their
decimal index suffixes differ. -/
theorem stageKeys_nodup (tag : String)
    (htag : ∀ c ∈ tag.data, (c != '_') = true) :
    ∀ (ps : List LogstashPlugin) (idx : Nat), (stageKeys tag idx ps).Nodup := by
  intro ps
  induction ps with
  | nil => intro idx; exact List.nodup_nil
  | cons p rest ih =>
    intro idx
    unfold stageKeys
    cases hg : get_transformer p.plugin_type p.plugin_name with
    | none => dsimp only; exact ih (idx + 1)
    | some tf =>
      dsimp only
      cases htf : tf p with
      | some comp =>
        dsimp only
        refine List.nodup_cons.mpr ⟨?_, ih (idx + 1)⟩
        intro hmem
        obtain ⟨name, j, hj, hkey⟩ := stageKeys_mem tag rest (idx + 1) _ hmem
        obtain ⟨-, -, hij⟩ := migKey_inj p.plugin_name name tag tag idx j
          htag htag hkey
        omega
      | none => dsimp only; exact ih (idx + 1)

/-- Identifiers of different roles never collide: the role tags differ. -/
theorem stageKeys_disjoint (tag1 tag2 : String)
    (ht1 : ∀ c ∈ tag1.data, (c != '_') = true)
    (ht2 : ∀ c ∈ tag2.data, (c != '_') = true)
    (hne : tag1.data ≠ tag2.data) :
    ∀ (ps1 ps2 : List LogstashPlugin) (i1 i2 : Nat) (k : String),
      k ∈ stageKeys tag1 i1 ps1 → k ∈ stageKeys tag2 i2 ps2 → False := by
  intro ps1 ps2 i1 i2 k h1 h2
  obtain ⟨n1, j1, -, hk1⟩ := stageKeys_mem tag1 ps1 i1 k h1
  obtain ⟨n2, j2, -, hk2⟩ := stageKeys_mem tag2 ps2 i2 k h2
  obtain ⟨-, ht, -⟩ := migKey_inj n1 n2 tag1 tag2 j1 j2 ht1 ht2
    (hk1 ▸ hk2 ▸ rfl)
  exact hne ht

/-- The keys produced by the inputs loop are the accumulated keys followed
by the role's assigned identifiers. -/
theorem migrateInputsGo_keys (path : String) :
    ∀ (ps : List LogstashPlugin) (idx : Nat) (acc : StageAcc),
      (migrateInputsGo path idx ps acc).comps.map Prod.fst =
        acc.comps.map Prod.fst ++ stageKeys "input" idx ps := by
  intro ps
  induction ps with
  | nil => intro idx acc; simp [migrateInputsGo, stageKeys]
  | cons p rest ih =>
    intro idx acc
    unfold migrateInputsGo stageKeys
    cases hg : get_transformer p.plugin_type p.plugin_name with
    | none => dsimp only; exact ih _ _
    | some tf =>
      dsimp only
      cases htf : tf p with
      | some comp =>
        dsimp only
        rw [ih _ _]
        simp [key_tag_eq p.plugin_name "_input_" "input" idx (by decide)]
      | none => exact ih _ _

/-- The keys produced by the filters loop. -/
theorem migrateFiltersGo_keys (path : String) (srcIds : List String) :
    ∀ (ps : List LogstashPlugin) (idx : Nat) (acc : StageAcc),
      (migrateFiltersGo path srcIds idx ps acc).comps.map Prod.fst =
        acc.comps.map Prod.fst ++ stageKeys "filter" idx ps := by
  intro ps
  induction ps with
  | nil => intro idx acc; simp [migrateFiltersGo, stageKeys]
  | cons p rest ih =>
    intro idx acc
    unfold migrateFiltersGo stageKeys
    cases hg : get_transformer p.plugin_type p.plugin_name with
    | none => dsimp only; exact ih _ _
    | some tf =>
      dsimp only
      cases htf : tf p with
      | some comp =>
        dsimp only
        rw [ih _ _]
        simp [key_tag_eq p.plugin_name "_filter_" "filter" idx (by decide)]
      | none => exact ih _ _

/-- The keys produced by the outputs loop. -/
theorem migrateOutputsGo_keys (path : String) (srcIds tIds : List String) :
    ∀ (ps : List LogstashPlugin) (idx : Nat) (acc : StageAcc),
      (migrateOutputsGo path srcIds tIds idx ps acc).comps.map Prod.fst =
        acc.comps.map Prod.fst ++ stageKeys "output" idx ps := by
  intro ps
  induction ps with
  | nil => intro idx acc; simp [migrateOutputsGo, stageKeys]
  | cons p rest ih =>
    intro idx acc
    unfold migrateOutputsGo stageKeys
    cases hg : get_transformer p.plugin_type p.plugin_name with
    | none => dsimp only; exact ih _ _
    | some tf =>
      dsimp only
      cases htf : tf p with
      | some comp =>
        dsimp only
        rw [ih _ _]
        simp [key_tag_eq p.plugin_name "_output_" "output" idx (by decide)]
      | none => exact ih _ _

/-- C4: the identifiers assigned by `migrate_config` are pairwise distinct
across the union of sources, transforms and sinks (`name_role_index`
identifiers cannot collide: equal identifiers force equal role tags and
equal decimal indices, and within a role the index is strictly
increasing). -/
theorem C4_identifier_uniqueness (path : String) (cfg : LogstashConfiguration) :
    (((migrateInputsGo path 0 cfg.inputs .empty).comps ++
      (migrateFiltersGo path (migrateInputsGo path 0 cfg.inputs .empty).ids 0
        cfg.filters .empty).comps ++
      (migrateOutputsGo path (migrateInputsGo path 0 cfg.inputs .empty).ids
        (migrateFiltersGo path (migrateInputsGo path 0 cfg.inputs .empty).ids 0
          cfg.filters .empty).ids 0 cfg.outputs .empty).comps).map
      Prod.fst).Nodup := by
  rw [List.map_append, List.map_append,
    migrateInputsGo_keys path cfg.inputs 0 .empty,
    migrateFiltersGo_keys path _ cfg.filters 0 .empty,
    migrateOutputsGo_keys path _ _ cfg.outputs 0 .empty]
  simp only [StageAcc.empty, List.map_nil, List.nil_append]
  have hin : ∀ c ∈ ("input" : String).data, (c != '_') = true := by decide
  have hfil : ∀ c ∈ ("filter" : String).data, (c != '_') = true := by decide
  have hout : ∀ c ∈ ("output" : String).data, (c != '_') = true := by decide
  refine List.Nodup.append (List.Nodup.append ?_ ?_ ?_) ?_ ?_
  · exact stageKeys_nodup "input" hin cfg.inputs 0
  · exact stageKeys_nodup "filter" hfil cfg.filters 0
  · intro k hk1 hk2
    exact stageKeys_disjoint "input" "filter" hin hfil (by decide)
      cfg.inputs cfg.filters 0 0 k hk1 hk2
  · exact stageKeys_nodup "output" hout cfg.outputs 0
  · intro k hk hko
    rcases List.mem_append.mp hk with hk1 | hk1
    · exact stageKeys_disjoint "input" "output" hin hout (by decide)
        cfg.inputs cfg.outputs 0 0 k hk1 hko
    · exact stageKeys_disjoint "filter" "output" hfil hout (by decide)
        cfg.filters cfg.outputs 0 0 k hk1 hko

end LvPy

namespace LvPy

/-- `listStartsWith` is stable under extending the scanned list. -/
theorem listStartsWith_append_left :
    ∀ (n a b : List Char), listStartsWith n a = true →
      listStartsWith n (a ++ b) = true := by
  intro n
  induction n with
  | nil => intro a b _; rfl
  | cons c n' ih =>
    intro a b h
    cases a with
    | nil => cases h
    | cons x a' =>
      simp only [listStartsWith, Bool.and_eq_true] at h ⊢
      exact ⟨h.1, ih a' b h.2⟩

/-- A prefix occurrence is an occurrence. -/
theorem listHasSub_of_startsWith (n h : List Char)
    (hs : listStartsWith n h = true) : listHasSub n h = true := by
  cases h with
  | nil => exact hs
  | cons c t => simp [listHasSub, hs]

/-- The TODO marker line of a placeholder comment block contains the
literal substring `TODO`, whatever the plugin name and role. -/
theorem todo_marker_present (name roleWord : String) :
    strContains
      ("TODO: Manual migration required for unsupported plugin '" ++ name ++
        "' (" ++ roleWord ++ ")") "TODO" = true := by
  unfold strContains
  apply listHasSub_of_startsWith
  simp only [String.data_append, ← List.append_assoc]
  apply listStartsWith_append_left
  apply listStartsWith_append_left
  apply listStartsWith_append_left
  apply listStartsWith_append_left
  decide

/-- The accumulators of the `transform_config` inputs loop only grow. -/
theorem transformInputsGo_mono :
    ∀ (ps : List LogstashPlugin) (idx : Nat) (acc r : TStageAcc),
      transformInputsGo idx ps acc = some r →
      (∀ x ∈ acc.comps, x ∈ r.comps) ∧ (∀ x ∈ acc.ids, x ∈ r.ids) ∧
      (∀ x ∈ acc.unsupported, x ∈ r.unsupported) := by
  intro ps
  induction ps with
  | nil =>
    intro idx acc r h
    cases h
    exact ⟨fun x hx => hx, fun x hx => hx, fun x hx => hx⟩
  | cons p rest ih =>
    intro idx acc r h
    unfold transformInputsGo at h
    cases hg : get_transformer .INPUT p.plugin_name with
    | some tf =>
      rw [hg] at h
      dsimp only at h
      cases htf : tf p with
      | none => rw [htf] at h; cases h
      | some comp =>
        rw [htf] at h
        dsimp only at h
        obtain ⟨h1, h2, h3⟩ := ih _ _ _ h
        exact ⟨fun x hx => h1 x (List.mem_append_left _ hx),
          fun x hx => h2 x (List.mem_append_left _ hx),
          fun x hx => h3 x hx⟩
    | none =>
      rw [hg] at h
      dsimp only at h
      obtain ⟨h1, h2, h3⟩ := ih _ _ _ h
      exact ⟨fun x hx => h1 x (List.mem_append_left _ hx),
        fun x hx => h2 x (List.mem_append_left _ hx),
        fun x hx => h3 x (List.mem_append_left _ hx)⟩

/-- Every unsupported input declaration leaves a placeholder source (with
its annotated comment block), its placeholder identifier in the wiring
list, and an unsupported record, in the inputs-loop result. -/
theorem transformInputsGo_placeholder :
    ∀ (ps : List LogstashPlugin) (idx : Nat) (acc r : TStageAcc),
      transformInputsGo idx ps acc = some r →
      ∀ (k : Nat) (hk : k < ps.length),
        get_transformer .INPUT (ps.get ⟨k, hk⟩).plugin_name = none →
        (tId (ps.get ⟨k, hk⟩).plugin_name "input" true (idx + k),
          (⟨.SOURCE, (ps.get ⟨k, hk⟩).plugin_name, [], [],
            mkPlaceholderComments (ps.get ⟨k, hk⟩).plugin_name "input"
              (format_plugin_config (ps.get ⟨k, hk⟩))
              (get_migration_guidance (ps.get ⟨k, hk⟩).plugin_name).2
              (get_migration_guidance (ps.get ⟨k, hk⟩).plugin_name).1⟩ :
            VectorComponent)) ∈ r.comps ∧
        tId (ps.get ⟨k, hk⟩).plugin_name "input" true (idx + k) ∈ r.ids ∧
        (⟨(ps.get ⟨k, hk⟩).plugin_name, .INPUT, (ps.get ⟨k, hk⟩).line_number,
          format_plugin_config (ps.get ⟨k, hk⟩),
          (get_migration_guidance (ps.get ⟨k, hk⟩).plugin_name).1,
          (get_migration_guidance (ps.get ⟨k, hk⟩).plugin_name).2⟩ :
          UnsupportedPlugin) ∈ r.unsupported := by
  intro ps
  induction ps with
  | nil => intro idx acc r h k hk; simp at hk
  | cons p rest ih =>
    intro idx acc r h k hk hnone
    cases k with
    | zero =>
      simp only [List.get] at hnone ⊢
      unfold transformInputsGo at h
      rw [hnone] at h
      dsimp only at h
      obtain ⟨h1, h2, h3⟩ := transformInputsGo_mono _ _ _ _ h
      refine ⟨?_, ?_, ?_⟩
      · simp only [Nat.add_zero]
        exact h1 _ (List.mem_append_right _ (List.mem_singleton.mpr rfl))
      · simp only [Nat.add_zero]
        exact h2 _ (List.mem_append_right _ (List.mem_singleton.mpr rfl))
      · exact h3 _ (List.mem_append_right _ (List.mem_singleton.mpr rfl))
    | succ k' =>
      have hk' : k' < rest.length := by simpa using hk
      have hidx : idx + (k' + 1) = (idx + 1) + k' := by omega
      have hget : (p :: rest).get ⟨k' + 1, hk⟩ = rest.get ⟨k', hk'⟩ := rfl
      rw [hget] at hnone ⊢
      rw [hidx]
      unfold transformInputsGo at h
      cases hg : get_transformer .INPUT p.plugin_name with
      | some tf =>
        rw [hg] at h
        dsimp only at h
        cases htf : tf p with
        | none => rw [htf] at h; cases h
        | some comp =>
          rw [htf] at h
          dsimp only at h
          exact ih _ _ _ h k' hk' hnone
      | none =>
        rw [hg] at h
        dsimp only at h
        exact ih _ _ _ h k' hk' hnone

end LvPy

namespace LvPy

/-- A placeholder comment block is never empty. -/
theorem mkPlaceholderComments_ne_nil (n w f g : String) (a : List String) :
    mkPlaceholderComments n w f a g ≠ [] := by
  simp [mkPlaceholderComments]

/-- A placeholder comment block contains a line with the substring `TODO`. -/
theorem mkPlaceholderComments_any_todo (n w f g : String) (a : List String) :
    (mkPlaceholderComments n w f a g).any
      (fun c => strContains c "TODO") = true := by
  unfold mkPlaceholderComments
  simp only [List.cons_append, List.any_cons, Bool.or_eq_true]
  exact Or.inl (todo_marker_present n w)

/-- Every line of the re-rendered original settings appears (indented) in
the placeholder comment block. -/
theorem mkPlaceholderComments_settings_mem (n w f g : String)
    (a : List String) (line : String) (h : line ∈ splitNl f) :
    ("    " ++ line) ∈ mkPlaceholderComments n w f a g := by
  unfold mkPlaceholderComments
  simp only [List.mem_append, List.mem_map]
  exact Or.inl (Or.inl (Or.inl (Or.inl (Or.inr ⟨line, h, rfl⟩))))

/-- The accumulators of the `transform_config` filters loop only grow. -/
theorem transformFiltersGo_mono (srcIds : List String) :
    ∀ (ps : List LogstashPlugin) (idx : Nat) (acc r : TStageAcc),
      transformFiltersGo srcIds idx ps acc = some r →
      (∀ x ∈ acc.comps, x ∈ r.comps) ∧ (∀ x ∈ acc.ids, x ∈ r.ids) ∧
      (∀ x ∈ acc.unsupported, x ∈ r.unsupported) := by
  intro ps
  induction ps with
  | nil =>
    intro idx acc r h
    cases h
    exact ⟨fun x hx => hx, fun x hx => hx, fun x hx => hx⟩
  | cons p rest ih =>
    intro idx acc r h
    unfold transformFiltersGo at h
    cases hg : get_transformer .FILTER p.plugin_name with
    | some tf =>
      rw [hg] at h
      dsimp only at h
      cases htf : tf p with
      | none => rw [htf] at h; cases h
      | some comp =>
        rw [htf] at h
        dsimp only at h
        obtain ⟨h1, h2, h3⟩ := ih _ _ _ h
        exact ⟨fun x hx => h1 x (List.mem_append_left _ hx),
          fun x hx => h2 x (List.mem_append_left _ hx),
          fun x hx => h3 x hx⟩
    | none =>
      rw [hg] at h
      dsimp only at h
      obtain ⟨h1, h2, h3⟩ := ih _ _ _ h
      exact ⟨fun x hx => h1 x (List.mem_append_left _ hx),
        fun x hx => h2 x (List.mem_append_left _ hx),
        fun x hx => h3 x (List.mem_append_left _ hx)⟩

/-- The accumulators of the `transform_config` outputs loop only grow. -/
theorem transformOutputsGo_mono (srcIds tIds : List String) :
    ∀ (ps : List LogstashPlugin) (idx : Nat) (acc r : TStageAcc),
      transformOutputsGo srcIds tIds idx ps acc = some r →
      (∀ x ∈ acc.comps, x ∈ r.comps) ∧
      (∀ x ∈ acc.unsupported, x ∈ r.unsupported) := by
  intro ps
  induction ps with
  | nil =>
    intro idx acc r h
    cases h
    exact ⟨fun x hx => hx, fun x hx => hx⟩
  | cons p rest ih =>
    intro idx acc r h
    unfold transformOutputsGo at h
    cases hg : get_transformer .OUTPUT p.plugin_name with
    | some tf =>
      rw [hg] at h
      dsimp only at h
      cases htf : tf p with
      | none => rw [htf] at h; cases h
      | some comp =>
        rw [htf] at h
        dsimp only at h
        obtain ⟨h1, h2⟩ := ih _ _ _ h
        exact ⟨fun x hx => h1 x (List.mem_append_left _ hx),
          fun x hx => h2 x hx⟩
    | none =>
      rw [hg] at h
      dsimp only at h
      obtain ⟨h1, h2⟩ := ih _ _ _ h
      exact ⟨fun x hx => h1 x (List.mem_append_left _ hx),
        fun x hx => h2 x (List.mem_append_left _ hx)⟩

/-- Every unsupported filter declaration leaves an annotated `remap`
placeholder transform, its identifier in the wiring list, and an
unsupported record, in the filters-loop result. -/
theorem transformFiltersGo_placeholder (srcIds : List String) :
    ∀ (ps : List LogstashPlugin) (idx : Nat) (acc r : TStageAcc),
      transformFiltersGo srcIds idx ps acc = some r →
      ∀ (k : Nat) (hk : k < ps.length),
        get_transformer .FILTER (ps.get ⟨k, hk⟩).plugin_name = none →
        (∃ comp : VectorComponent,
          (tId (ps.get ⟨k, hk⟩).plugin_name "filter" true (idx + k), comp) ∈ r.comps ∧
          comp.component_type = .TRANSFORM ∧
          comp.component_kind = "remap" ∧
          comp.comments = mkPlaceholderComments (ps.get ⟨k, hk⟩).plugin_name "filter"
            (format_plugin_config (ps.get ⟨k, hk⟩))
            (get_migration_guidance (ps.get ⟨k, hk⟩).plugin_name).2
            (get_migration_guidance (ps.get ⟨k, hk⟩).plugin_name).1) ∧
        tId (ps.get ⟨k, hk⟩).plugin_name "filter" true (idx + k) ∈ r.ids ∧
        (⟨(ps.get ⟨k, hk⟩).plugin_name, .FILTER, (ps.get ⟨k, hk⟩).line_number,
          format_plugin_config (ps.get ⟨k, hk⟩),
          (get_migration_guidance (ps.get ⟨k, hk⟩).plugin_name).1,
          (get_migration_guidance (ps.get ⟨k, hk⟩).plugin_name).2⟩ :
          UnsupportedPlugin) ∈ r.unsupported := by
  intro ps
  induction ps with
  | nil => intro idx acc r h k hk; simp at hk
  | cons p rest ih =>
    intro idx acc r h k hk hnone
    cases k with
    | zero =>
      simp only [List.get] at hnone ⊢
      unfold transformFiltersGo at h
      rw [hnone] at h
      dsimp only at h
      obtain ⟨h1, h2, h3⟩ := transformFiltersGo_mono srcIds _ _ _ _ h
      simp only [Nat.add_zero]
      refine ⟨⟨⟨.TRANSFORM, "remap",
          [("source", .str "# FIXME: Implement transformation logic")],
          srcIds ++ acc.ids,
          mkPlaceholderComments p.plugin_name "filter" (format_plugin_config p)
            (get_migration_guidance p.plugin_name).2
            (get_migration_guidance p.plugin_name).1⟩,
        ?_, rfl, rfl, rfl⟩, ?_, ?_⟩
      · exact h1 _ (List.mem_append_right _ (List.mem_singleton.mpr rfl))
      · exact h2 _ (List.mem_append_right _ (List.mem_singleton.mpr rfl))
      · exact h3 _ (List.mem_append_right _ (List.mem_singleton.mpr rfl))
    | succ k' =>
      have hk' : k' < rest.length := by simpa using hk
      have hidx : idx + (k' + 1) = (idx + 1) + k' := by omega
      have hget : (p :: rest).get ⟨k' + 1, hk⟩ = rest.get ⟨k', hk'⟩ := rfl
      rw [hget] at hnone ⊢
      rw [hidx]
      unfold transformFiltersGo at h
      cases hg : get_transformer .FILTER p.plugin_name with
      | some tf =>
        rw [hg] at h
        dsimp only at h
        cases htf : tf p with
        | none => rw [htf] at h; cases h
        | some comp =>
          rw [htf] at h
          dsimp only at h
          exact ih _ _ _ h k' hk' hnone
      | none =>
        rw [hg] at h
        dsimp only at h
        exact ih _ _ _ h k' hk' hnone

/-- Every unsupported output declaration leaves an annotated placeholder
sink, wired to all transforms (or all sources), plus an unsupported
record, in the outputs-loop result. -/
theorem transformOutputsGo_placeholder (srcIds tIds : List String) :
    ∀ (ps : List LogstashPlugin) (idx : Nat) (acc r : TStageAcc),
      transformOutputsGo srcIds tIds idx ps acc = some r →
      ∀ (k : Nat) (hk : k < ps.length),
        get_transformer .OUTPUT (ps.get ⟨k, hk⟩).plugin_name = none →
        (∃ comp : VectorComponent,
          (tId (ps.get ⟨k, hk⟩).plugin_name "output" true (idx + k), comp) ∈ r.comps ∧
          comp.component_type = .SINK ∧
          comp.component_kind = (ps.get ⟨k, hk⟩).plugin_name ∧
          comp.inputs = (if tIds.isEmpty then srcIds else tIds) ∧
          comp.comments = mkPlaceholderComments (ps.get ⟨k, hk⟩).plugin_name "output"
            (format_plugin_config (ps.get ⟨k, hk⟩))
            (get_migration_guidance (ps.get ⟨k, hk⟩).plugin_name).2
            (get_migration_guidance (ps.get ⟨k, hk⟩).plugin_name).1) ∧
        (⟨(ps.get ⟨k, hk⟩).plugin_name, .OUTPUT, (ps.get ⟨k, hk⟩).line_number,
          format_plugin_config (ps.get ⟨k, hk⟩),
          (get_migration_guidance (ps.get ⟨k, hk⟩).plugin_name).1,
          (get_migration_guidance (ps.get ⟨k, hk⟩).plugin_name).2⟩ :
          UnsupportedPlugin) ∈ r.unsupported := by
  intro ps
  induction ps with
  | nil => intro idx acc r h k hk; simp at hk
  | cons p rest ih =>
    intro idx acc r h k hk hnone
    cases k with
    | zero =>
      simp only [List.get] at hnone ⊢
      unfold transformOutputsGo at h
      rw [hnone] at h
      dsimp only at h
      obtain ⟨h1, h2⟩ := transformOutputsGo_mono srcIds tIds _ _ _ _ h
      simp only [Nat.add_zero]
      refine ⟨⟨⟨.SINK, p.plugin_name, [],
          (if tIds.isEmpty then srcIds else tIds),
          mkPlaceholderComments p.plugin_name "output" (format_plugin_config p)
            (get_migration_guidance p.plugin_name).2
            (get_migration_guidance p.plugin_name).1⟩,
        ?_, rfl, rfl, rfl, rfl⟩, ?_⟩
      · exact h1 _ (List.mem_append_right _ (List.mem_singleton.mpr rfl))
      · exact h2 _ (List.mem_append_right _ (List.mem_singleton.mpr rfl))
    | succ k' =>
      have hk' : k' < rest.length := by simpa using hk
      have hidx : idx + (k' + 1) = (idx + 1) + k' := by omega
      have hget : (p :: rest).get ⟨k' + 1, hk⟩ = rest.get ⟨k', hk'⟩ := rfl
      rw [hget] at hnone ⊢
      rw [hidx]
      unfold transformOutputsGo at h
      cases hg : get_transformer .OUTPUT p.plugin_name with
      | some tf =>
        rw [hg] at h
        dsimp only at h
        cases htf : tf p with
        | none => rw [htf] at h; cases h
        | some comp =>
          rw [htf] at h
          dsimp only at h
          exact ih _ _ _ h k' hk' hnone
      | none =>
        rw [hg] at h
        dsimp only at h
        exact ih _ _ _ h k' hk' hnone

end LvPy

namespace LvPy

/-- C1 counterexample: the orchestrator actually used by the API,
`migrate_config`, does not create a placeholder for an unsupported plugin.
On a document with a `kafka` input next to a `file` input and a `file`
output, the report carries the unsupported record, but the produced
document holds only the two supported components — no component stems from
`kafka` and no component carries any comment (in particular no TODO
annotation). -/
theorem C1_migrate_drops_unsupported :
    ((migrate_config "pipeline.conf"
        "input\x7bkafka\x7b\x7dfile\x7b\x7d\x7doutput\x7bfile\x7b\x7d\x7d"
        "pipeline.toml").2.unsupported_plugins.map
          (fun u => u.plugin_name)) = ["kafka"] ∧
    ((migrate_config "pipeline.conf"
        "input\x7bkafka\x7b\x7dfile\x7b\x7d\x7doutput\x7bfile\x7b\x7d\x7d"
        "pipeline.toml").1).map
      (fun vc =>
        ((vc.sources ++ vc.transforms ++ vc.sinks).map Prod.fst,
         (vc.sources ++ vc.transforms ++ vc.sinks).all
           (fun pr => pr.2.comments.isEmpty))) =
      some (["file_input_1", "file_output_0"], true) := ⟨rfl, rfl⟩

/-- C1 (amended): placeholder creation lives in the `transform_config`
orchestrator. Whenever it succeeds, every plugin declaration of any role
whose name has no registered transformer yields, in the returned document,
a placeholder component of the kind appropriate to the role under its
placeholder identifier, whose comment list is non-empty, contains the
literal substring TODO, and embeds every line of the plugin's re-rendered
original settings; an unsupported record with the same data is appended to
the report. (`migrate_config`, by contrast, drops the plugin and only
records it, as the counterexample shows.) -/
theorem C1_placeholder_creation (cfg : LogstashConfiguration)
    (vc : VectorConfiguration) (rep : MigrationReport)
    (h : transform_config cfg = some (vc, rep)) :
    (∀ (k : Nat) (hk : k < cfg.inputs.length),
      get_transformer .INPUT (cfg.inputs.get ⟨k, hk⟩).plugin_name = none →
      ∃ comp : VectorComponent,
        (tId (cfg.inputs.get ⟨k, hk⟩).plugin_name "input" true k, comp)
            ∈ vc.sources ∧
        comp.component_type = .SOURCE ∧
        comp.comments ≠ [] ∧
        comp.comments.any (fun c => strContains c "TODO") = true ∧
        (∀ line ∈ splitNl (format_plugin_config (cfg.inputs.get ⟨k, hk⟩)),
          ("    " ++ line) ∈ comp.comments) ∧
        (⟨(cfg.inputs.get ⟨k, hk⟩).plugin_name, .INPUT,
          (cfg.inputs.get ⟨k, hk⟩).line_number,
          format_plugin_config (cfg.inputs.get ⟨k, hk⟩),
          (get_migration_guidance (cfg.inputs.get ⟨k, hk⟩).plugin_name).1,
          (get_migration_guidance (cfg.inputs.get ⟨k, hk⟩).plugin_name).2⟩ :
          UnsupportedPlugin) ∈ rep.unsupported_plugins) ∧
    (∀ (k : Nat) (hk : k < cfg.filters.length),
      get_transformer .FILTER (cfg.filters.get ⟨k, hk⟩).plugin_name = none →
      ∃ comp : VectorComponent,
        (tId (cfg.filters.get ⟨k, hk⟩).plugin_name "filter" true k, comp)
            ∈ vc.transforms ∧
        comp.component_type = .TRANSFORM ∧
        comp.component_kind = "remap" ∧
        comp.comments ≠ [] ∧
        comp.comments.any (fun c => strContains c "TODO") = true ∧
        (∀ line ∈ splitNl (format_plugin_config (cfg.filters.get ⟨k, hk⟩)),
          ("    " ++ line) ∈ comp.comments) ∧
        (⟨(cfg.filters.get ⟨k, hk⟩).plugin_name, .FILTER,
          (cfg.filters.get ⟨k, hk⟩).line_number,
          format_plugin_config (cfg.filters.get ⟨k, hk⟩),
          (get_migration_guidance (cfg.filters.get ⟨k, hk⟩).plugin_name).1,
          (get_migration_guidance (cfg.filters.get ⟨k, hk⟩).plugin_name).2⟩ :
          UnsupportedPlugin) ∈ rep.unsupported_plugins) ∧
    (∀ (k : Nat) (hk : k < cfg.outputs.length),
      get_transformer .OUTPUT (cfg.outputs.get ⟨k, hk⟩).plugin_name = none →
      ∃ comp : VectorComponent,
        (tId (cfg.outputs.get ⟨k, hk⟩).plugin_name "output" true k, comp)
            ∈ vc.sinks ∧
        comp.component_type = .SINK ∧
        comp.component_kind = (cfg.outputs.get ⟨k, hk⟩).plugin_name ∧
        comp.comments ≠ [] ∧
        comp.comments.any (fun c => strContains c "TODO") = true ∧
        (∀ line ∈ splitNl (format_plugin_config (cfg.outputs.get ⟨k, hk⟩)),
          ("    " ++ line) ∈ comp.comments) ∧
        (⟨(cfg.outputs.get ⟨k, hk⟩).plugin_name, .OUTPUT,
          (cfg.outputs.get ⟨k, hk⟩).line_number,
          format_plugin_config (cfg.outputs.get ⟨k, hk⟩),
          (get_migration_guidance (cfg.outputs.get ⟨k, hk⟩).plugin_name).1,
          (get_migration_guidance (cfg.outputs.get ⟨k, hk⟩).plugin_name).2⟩ :
          UnsupportedPlugin) ∈ rep.unsupported_plugins) := by
  unfold transform_config at h
  cases hIn : transformInputsGo 0 cfg.inputs .empty with
  | none => rw [hIn] at h; cases h
  | some sIn =>
  rw [hIn] at h
  dsimp only at h
  cases hFil : transformFiltersGo sIn.ids 0 cfg.filters .empty with
  | none => rw [hFil] at h; cases h
  | some sFil =>
  rw [hFil] at h
  dsimp only at h
  cases hOut : transformOutputsGo sIn.ids sFil.ids 0 cfg.outputs .empty with
  | none => rw [hOut] at h; cases h
  | some sOut =>
  rw [hOut] at h
  dsimp only at h
  cases hmk : mkVectorConfiguration (withTomlSuffix cfg.file_path)
      sIn.comps sFil.comps sOut.comps with
  | none => rw [hmk] at h; cases h
  | some vc' =>
  rw [hmk] at h
  dsimp only at h
  simp only [Option.some.injEq, Prod.mk.injEq] at h
  obtain ⟨hvc, hrep⟩ := h
  subst hvc
  subst hrep
  obtain ⟨hsrc, htr, hsk⟩ := mkVectorConfiguration_fields _ _ _ _ _ hmk
  refine ⟨?_, ?_, ?_⟩
  · intro k hk hnone
    have hp := transformInputsGo_placeholder cfg.inputs 0 .empty sIn hIn k hk hnone
    simp only [Nat.zero_add] at hp
    obtain ⟨hc, _, hun⟩ := hp
    refine ⟨⟨.SOURCE, (cfg.inputs.get ⟨k, hk⟩).plugin_name, [], [],
        mkPlaceholderComments (cfg.inputs.get ⟨k, hk⟩).plugin_name "input"
          (format_plugin_config (cfg.inputs.get ⟨k, hk⟩))
          (get_migration_guidance (cfg.inputs.get ⟨k, hk⟩).plugin_name).2
          (get_migration_guidance (cfg.inputs.get ⟨k, hk⟩).plugin_name).1⟩,
      ?_, rfl, ?_, ?_, ?_, ?_⟩
    · rw [hsrc]; exact hc
    · exact mkPlaceholderComments_ne_nil _ _ _ _ _
    · exact mkPlaceholderComments_any_todo _ _ _ _ _
    · intro line hl
      exact mkPlaceholderComments_settings_mem _ _ _ _ _ _ hl
    · exact List.mem_append_left _ (List.mem_append_left _ hun)
  · intro k hk hnone
    have hp := transformFiltersGo_placeholder sIn.ids cfg.filters 0 .empty sFil
      hFil k hk hnone
    simp only [Nat.zero_add] at hp
    obtain ⟨⟨comp, hc, hty, hkind, hcom⟩, _, hun⟩ := hp
    refine ⟨comp, ?_, hty, hkind, ?_, ?_, ?_, ?_⟩
    · rw [htr]; exact hc
    · rw [hcom]; exact mkPlaceholderComments_ne_nil _ _ _ _ _
    · rw [hcom]; exact mkPlaceholderComments_any_todo _ _ _ _ _
    · intro line hl
      rw [hcom]
      exact mkPlaceholderComments_settings_mem _ _ _ _ _ _ hl
    · exact List.mem_append_left _ (List.mem_append_right _ hun)
  · intro k hk hnone
    have hp := transformOutputsGo_placeholder sIn.ids sFil.ids cfg.outputs 0
      .empty sOut hOut k hk hnone
    simp only [Nat.zero_add] at hp
    obtain ⟨⟨comp, hc, hty, hkind, _, hcom⟩, hun⟩ := hp
    refine ⟨comp, ?_, hty, hkind, ?_, ?_, ?_, ?_⟩
    · rw [hsk]; exact hc
    · rw [hcom]; exact mkPlaceholderComments_ne_nil _ _ _ _ _
    · rw [hcom]; exact mkPlaceholderComments_any_todo _ _ _ _ _
    · intro line hl
      rw [hcom]
      exact mkPlaceholderComments_settings_mem _ _ _ _ _ _ hl
    · exact List.mem_append_right _ hun

/-- The amended C1 theorem applied to a concrete configuration with an
unsupported input plugin. -/
theorem C1_placeholder_creation_witness :
    ∃ (vc : VectorConfiguration) (rep : MigrationReport),
      transform_config demoUnsupportedConfig = some (vc, rep) ∧
      ∃ comp : VectorComponent,
        (tId "kafka" "input" true 0, comp) ∈ vc.sources ∧
        comp.component_type = .SOURCE ∧
        comp.comments ≠ [] ∧
        comp.comments.any (fun c => strContains c "TODO") = true := by
  obtain ⟨vc, rep, hvr⟩ : ∃ vc rep,
      transform_config demoUnsupportedConfig = some (vc, rep) := ⟨_, _, rfl⟩
  refine ⟨vc, rep, hvr, ?_⟩
  have H := (C1_placeholder_creation demoUnsupportedConfig vc rep hvr).1
    0 (by decide) (by rfl)
  obtain ⟨comp, h1, h2, h3, h4, _, _⟩ := H
  exact ⟨comp, h1, h2, h3, h4⟩

end LvPy
